import Mathlib

/-!
Verification development for the servelink-api geofence-driven billing
session engine.

The embedding follows the TypeScript source:

* `src/services/api/src/utils/geo.ts` — `isInsideGeofence` (the geofence
  evaluator).  The haversine distance itself is transcendental float math,
  so it is abstracted as an explicit distance-function parameter `hav`;
  everything downstream of the distance (the accuracy buffer, the
  threshold, the NaN-fail-closed comparison) is embedded exactly.
* `BillingService` (billing.service.ts) — `computeBillable`,
  `getOpenSession`, `startSession`, `endSession`, `reconcileFromPing`,
  `summarizeBooking`, `finalizeBookingBilling`, `emitNoteEvent`.
* `BillingFinalizationAdminController.refinalize`
  (billing.finalization.admin.controller.ts).

Modelling conventions:

* A JavaScript number that may be NaN/±Infinity is `JsNum α = Option α`
  with `none` standing for a non-finite value; comparisons involving
  `none` are false, as IEEE comparisons with NaN are.  The numeric type
  `α` of geographic values (coordinates, metres) is kept generic over a
  `LinearOrderedAddCommMonoid` — the geofence code only ever adds and
  compares them; theorems instantiate `α` with `ℚ` (exact model of float
  values) or `ℤ` (the integer-valued subdomain, on which float arithmetic
  is exact and everything is kernel-computable).
* Timestamps are epoch milliseconds as `ℤ` (`Date.getTime`); money and
  minutes are `ℤ`.  `Date.toISOString` is an injective rendering of the
  timestamp and is embedded as its decimal rendering.
* The Prisma store is an explicit record of lists; `create`/`update`/
  `findFirst`/`findUnique` become list operations.  The unique constraint
  on `(bookingId, idempotencyKey)` of the BookingEvent ledger plus the
  swallowed `P2002` duplicate error become an idempotent append.
* Thrown `NotFoundException`/`ForbiddenException` become `Except` errors.
-/

namespace ServeLink

/-- A JavaScript number that may be non-finite: `none` models NaN (or
±Infinity where the source checks `Number.isFinite`). -/
abbrev JsNum (α : Type) := Option α

section Geo

variable {α : Type} [LinearOrderedAddCommMonoid α]

/-- JavaScript `<=` on possibly-NaN numbers: any comparison with NaN is
false (fail closed). -/
def jsLe : JsNum α → JsNum α → Bool
  | some a, some b => decide (a ≤ b)
  | _, _ => false

/-- JavaScript `+` of a possibly-NaN number and a finite number: NaN
propagates. -/
def jsAddFin : JsNum α → α → JsNum α
  | some a, b => some (a + b)
  | none, _ => none

/-- Result record of `isInsideGeofence` in geo.ts: the inside flag, the
raw distance and the threshold used. -/
structure GeoResult (α : Type) where
  inside : Bool
  distanceMeters : JsNum α
  thresholdMeters : JsNum α
deriving Repr, DecidableEq

/-- `isInsideGeofence` from geo.ts.  `hav` abstracts `haversineMeters`
(transcendental float math); the accuracy defaulting, threshold and
comparison are embedded exactly.  `accuracyMeters = none` models an
absent (`undefined`) argument, `some none` a NaN argument; the source
condition `typeof a === "number" && Number.isFinite(a) && a > 0` is
exactly the `some (some a)` with `0 < a` case. -/
def isInsideGeofence (hav : JsNum α → JsNum α → JsNum α → JsNum α → JsNum α)
    (pingLat pingLng siteLat siteLng : JsNum α) (radiusMeters : JsNum α)
    (accuracyMeters : Option (JsNum α)) : GeoResult α :=
  let distanceMeters := hav pingLat pingLng siteLat siteLng
  let accuracy : α :=
    match accuracyMeters with
    | some (some a) => if 0 < a then a else 0
    | _ => 0
  let thresholdMeters := jsAddFin radiusMeters accuracy
  { inside := jsLe distanceMeters thresholdMeters
    distanceMeters := distanceMeters
    thresholdMeters := thresholdMeters }

end Geo

variable {α : Type} [LinearOrderedAddCommMonoid α]

/-- Math.ceil of the quotient of an integer by a positive integer, as the
source computes with `Math.ceil(x / y)`; `Int.fdiv` is floor division, so
`-((-a).fdiv b) = ⌈a / b⌉`. -/
def ceilDivInt (a b : ℤ) : ℤ := -((-a).fdiv b)

/-- `BillingService.computeBillable`, embedded on the integer domain: all
call sites (the pricing policy and `endSession`) pass integers, on which
the source's float arithmetic is exact and `Math.floor` of the increment
is the identity.  `Math.floor` of the final division is `Int.fdiv`. -/
def computeBillable (durationSec hourlyRateCents billingIncrementMinutes : ℤ) :
    ℤ × ℤ :=
  let durationMin := max 0 (ceilDivInt durationSec 60)
  let inc := max 1 billingIncrementMinutes
  let billableMin := ceilDivInt durationMin inc * inc
  let billableCents := (billableMin * hourlyRateCents + 30).fdiv 60
  (billableMin, billableCents)

/-- The pricing policy record returned by `getPricingPolicy`. -/
structure PricingPolicy where
  hourlyRateCents : ℤ
  billingIncrementMinutes : ℤ
  graceSeconds : ℤ
deriving Repr, DecidableEq

/-- `BillingService.getPricingPolicy`: hardcoded policy, grace locked to
15 minutes. -/
def getPricingPolicy : PricingPolicy :=
  { hourlyRateCents := 6500, billingIncrementMinutes := 15, graceSeconds := 15 * 60 }

/-- A `BillingSession` row.  Timestamps are epoch milliseconds. -/
structure BillingSession where
  id : ℕ
  bookingId : String
  foId : String
  startedAt : ℤ
  endedAt : Option ℤ := none
  firstExitAt : Option ℤ := none
  graceExpiresAt : Option ℤ := none
  graceNotifiedAt : Option ℤ := none
  outsideSinceAt : Option ℤ := none
  pendingExitAt : Option ℤ := none
  durationSec : Option ℤ := none
  billableMin : Option ℤ := none
  billableCents : Option ℤ := none
deriving Repr, DecidableEq

/-- A `Booking` row, restricted to the fields the billing engine reads.
A geo field is `none` when NULL in the store and `some none` when it
holds a non-finite number (the source guards with `typeof === "number"`
and `Number.isFinite`). -/
structure Booking (α : Type) where
  id : String
  foId : String
  siteLat : Option (JsNum α) := none
  siteLng : Option (JsNum α) := none
  geofenceRadiusMeters : Option (JsNum α) := none
deriving Repr, DecidableEq

/-- A `BookingEvent` NOTE row of the audit ledger. -/
structure LedgerEvent where
  bookingId : String
  idempotencyKey : String
  note : String
deriving Repr, DecidableEq

/-- A `BookingStripePayment` row, restricted to what `refinalize` reads. -/
structure StripePayment where
  bookingId : String
  stripePaymentIntentId : String
  status : String
deriving Repr, DecidableEq

/-- A `BookingBillingFinalization` row. -/
structure BillingFinalization where
  bookingId : String
  totalBillableMin : ℤ
  totalBillableCents : ℤ
  minimumCents : ℤ
  finalBillableMin : ℤ
  finalBillableCents : ℤ
  idempotencyKey : String
deriving Repr, DecidableEq

/-- The slice of the database the billing engine reads and writes. -/
structure DbState (α : Type) where
  bookings : List (Booking α)
  sessions : List BillingSession
  ledger : List LedgerEvent
  payments : List StripePayment
  finalizations : List BillingFinalization
  nextSessionId : ℕ
deriving Repr, DecidableEq

/-- Errors thrown by the service (NestJS exceptions). -/
inductive ApiError
  | notFound (msg : String)
  | forbidden
deriving Repr, DecidableEq

deriving instance DecidableEq for Except

/-- Append a note to the ledger unless a row with the same
`(bookingId, idempotencyKey)` already exists — the unique constraint with
the swallowed `P2002` duplicate error of `emitNoteEvent`. -/
def appendNote (l : List LedgerEvent) (e : LedgerEvent) : List LedgerEvent :=
  if l.any fun x => x.bookingId == e.bookingId && x.idempotencyKey == e.idempotencyKey
  then l
  else l ++ [e]

/-- `BillingService.emitNoteEvent`: idempotent ledger write. -/
def emitNoteEvent (st : DbState α) (bookingId idempotencyKey note : String) :
    DbState α :=
  { st with ledger := appendNote st.ledger ⟨bookingId, idempotencyKey, note⟩ }

/-- `Date.toISOString` of an epoch-millisecond timestamp, embedded as its
decimal rendering (both are injective renderings of the instant). -/
def isoString (t : ℤ) : String := toString t

/-- Sessions of a booking with `endedAt` NULL (the `findFirst` filter of
`getOpenSession`). -/
def openSessions (st : DbState α) (bookingId : String) : List BillingSession :=
  st.sessions.filter fun s => s.bookingId == bookingId && s.endedAt == none

/-- The row `findFirst … orderBy startedAt desc` returns: the first
row of maximal `startedAt`. -/
def pickLatest : List BillingSession → Option BillingSession
  | [] => none
  | s :: rest =>
    match pickLatest rest with
    | none => some s
    | some b => if s.startedAt < b.startedAt then some b else some s

/-- `BillingService.getOpenSession`. -/
def getOpenSession (st : DbState α) (bookingId : String) : Option BillingSession :=
  pickLatest (openSessions st bookingId)

/-- `BillingService.startSession`: idempotent — returns the existing open
session unchanged if there is one, otherwise creates a fresh row with all
grace fields (and the legacy `pendingExitAt`) NULL. -/
def startSession (st : DbState α) (bookingId foId : String) (startedAt : ℤ) :
    BillingSession × DbState α :=
  match getOpenSession st bookingId with
  | some existing => (existing, st)
  | none =>
    let s : BillingSession :=
      { id := st.nextSessionId, bookingId := bookingId, foId := foId
        startedAt := startedAt }
    (s, { st with sessions := st.sessions ++ [s],
                  nextSessionId := st.nextSessionId + 1 })

/-- `findUnique` of a session by id. -/
def findSession (st : DbState α) (id : ℕ) : Option BillingSession :=
  st.sessions.find? fun s => s.id == id

/-- Update every session with the given id (ids are unique in any store
Prisma produced, so this is the `update where id` of the source). -/
def updateSession (sessions : List BillingSession) (id : ℕ)
    (f : BillingSession → BillingSession) : List BillingSession :=
  sessions.map fun s => if s.id = id then f s else s

/-- The field writes of the `endSession` update: freeze the closing
fields, clear the grace fields and the legacy field. -/
def closeFields (endedAt durationSec billableMin billableCents : ℤ)
    (s : BillingSession) : BillingSession :=
  { s with endedAt := some endedAt, durationSec := some durationSec,
           billableMin := some billableMin, billableCents := some billableCents,
           firstExitAt := none, graceExpiresAt := none, graceNotifiedAt := none,
           outsideSinceAt := none, pendingExitAt := none }

/-- `BillingService.endSession`: not-found throws; an already-closed
session is returned unchanged; otherwise the duration is
`Math.max(0, Math.floor((endedAt - startedAt) / 1000))` and the derived
billing fields are frozen. -/
def endSession (st : DbState α) (sessionId : ℕ) (endedAt : ℤ) :
    Except ApiError (BillingSession × DbState α) :=
  let policy := getPricingPolicy
  match findSession st sessionId with
  | none => .error (.notFound "BILLING_SESSION_NOT_FOUND")
  | some session =>
    if session.endedAt.isSome then .ok (session, st)
    else
      let durationSec : ℤ := max 0 ((endedAt - session.startedAt).fdiv 1000)
      let b := computeBillable durationSec policy.hourlyRateCents
                 policy.billingIncrementMinutes
      .ok (closeFields endedAt durationSec b.1 b.2 session,
           { st with sessions := updateSession st.sessions sessionId
                       (closeFields endedAt durationSec b.1 b.2) })

/-- `findUnique` of a booking by id. -/
def findBooking (st : DbState α) (id : String) : Option (Booking α) :=
  st.bookings.find? fun b => b.id == id

/-- A stored geo field is usable iff it is a finite number — the source's
`typeof x === "number" && Number.isFinite(x)` guard. -/
def finiteField : Option (JsNum α) → Option α
  | some (some q) => some q
  | _ => none

/-- The `action` discriminator of a reconciliation result. -/
inductive ReconcileAction
  | noop
  | started
  | grace_started
  | grace_cleared
  | grace_expired_ended
deriving Repr, DecidableEq

/-- The `grace` sub-object of a reconciliation result (ISO timestamps
embedded as epoch milliseconds). -/
structure GraceView where
  active : Bool
  firstExitAt : Option ℤ
  graceExpiresAt : Option ℤ
deriving Repr, DecidableEq

/-- The `actionRequired` payload of a reconciliation result. -/
structure ActionRequired where
  type : String
  bookingId : String
  sessionId : ℕ
  endedAt : ℤ
deriving Repr, DecidableEq

/-- The result of `reconcileFromPing`. -/
structure ReconcileResult where
  inside : Bool
  action : ReconcileAction
  grace : GraceView
  actionRequired : Option ActionRequired
deriving Repr, DecidableEq

/-- The constant `{ active: false, firstExitAt: null, graceExpiresAt:
null }`. -/
def noGrace : GraceView := ⟨false, none, none⟩

/-- The `graceStateFromSession` helper inside `reconcileFromPing`. -/
def graceStateFromSession (s : BillingSession) : GraceView :=
  { active := s.graceExpiresAt.isSome && s.endedAt.isNone
    firstExitAt := s.firstExitAt
    graceExpiresAt := s.graceExpiresAt }

/-- One ingested ping, as `reconcileFromPing` receives it.  `accuracyM =
none` models an absent/NULL accuracy (the source forwards non-numbers as
`undefined`), `some none` a NaN one. -/
structure PingArgs (α : Type) where
  bookingId : String
  foId : String
  pingLat : JsNum α
  pingLng : JsNum α
  accuracyM : Option (JsNum α)
  capturedAt : ℤ
deriving Repr, DecidableEq

/-- Idempotency key of the `billing_grace_started` ledger note. -/
def graceStartedKey (sessionId : ℕ) (firstExitAt : ℤ) : String :=
  "billing:grace_started:" ++ toString sessionId ++ ":" ++ isoString firstExitAt

/-- Idempotency key of the `billing_grace_cleared` ledger note. -/
def graceClearedKey (sessionId : ℕ) : String :=
  "billing:grace_cleared:" ++ toString sessionId

/-- Idempotency key of the `billing_grace_expired_ended` ledger note. -/
def graceExpiredKey (sessionId : ℕ) (graceExpiresAt : ℤ) : String :=
  "billing:grace_expired_ended:" ++ toString sessionId ++ ":" ++
    isoString graceExpiresAt

/-- The field writes of the grace-start update. -/
def setGraceFields (firstExitAt graceExpiresAt graceNotifiedAt : ℤ)
    (s : BillingSession) : BillingSession :=
  { s with firstExitAt := some firstExitAt, outsideSinceAt := some firstExitAt,
           graceExpiresAt := some graceExpiresAt,
           graceNotifiedAt := some graceNotifiedAt, pendingExitAt := none }

/-- The field writes of the grace-clear update. -/
def clearGraceFields (s : BillingSession) : BillingSession :=
  { s with firstExitAt := none, graceExpiresAt := none, graceNotifiedAt := none,
           outsideSinceAt := none, pendingExitAt := none }

/-- `BillingService.reconcileFromPing`: consume one GPS ping and
reconcile the booking's billing session, following the source branch for
branch.  `hav` abstracts `haversineMeters`. -/
def reconcileFromPing (hav : JsNum α → JsNum α → JsNum α → JsNum α → JsNum α)
    (st : DbState α) (args : PingArgs α) :
    Except ApiError (ReconcileResult × DbState α) :=
  match findBooking st args.bookingId with
  | none => .error (.notFound "BOOKING_NOT_FOUND")
  | some booking =>
    if booking.foId ≠ args.foId then
      .ok ({ inside := false, action := .noop, grace := noGrace,
             actionRequired := none }, st)
    else
      match finiteField booking.siteLat, finiteField booking.siteLng,
            finiteField booking.geofenceRadiusMeters with
      | some siteLat, some siteLng, some radius =>
        let geo := isInsideGeofence hav args.pingLat args.pingLng
                     (some siteLat) (some siteLng) (some radius) args.accuracyM
        let policy := getPricingPolicy
        let graceMs : ℤ := max 0 (policy.graceSeconds * 1000)
        let opn := getOpenSession st booking.id
        if geo.inside then
          match opn with
          | none =>
            let started := startSession st booking.id args.foId args.capturedAt
            .ok ({ inside := true, action := .started, grace := noGrace,
                   actionRequired := none }, started.2)
          | some o =>
            if o.graceExpiresAt.isSome then
              let st1 : DbState α :=
                { st with sessions := updateSession st.sessions o.id clearGraceFields }
              let st2 := emitNoteEvent st1 booking.id (graceClearedKey o.id)
                           "billing_grace_cleared"
              .ok ({ inside := true, action := .grace_cleared, grace := noGrace,
                     actionRequired := none }, st2)
            else
              .ok ({ inside := true, action := .noop, grace := noGrace,
                     actionRequired := none }, st)
        else
          match opn with
          | none =>
            .ok ({ inside := false, action := .noop, grace := noGrace,
                   actionRequired := none }, st)
          | some o =>
            match o.graceExpiresAt with
            | none =>
              let computedFirstExitAt := o.firstExitAt.getD args.capturedAt
              let computedGraceExpiresAt := computedFirstExitAt + graceMs
              let upd := setGraceFields computedFirstExitAt computedGraceExpiresAt
                           args.capturedAt
              let st1 : DbState α :=
                { st with sessions := updateSession st.sessions o.id upd }
              let st2 := emitNoteEvent st1 booking.id
                           (graceStartedKey o.id computedFirstExitAt)
                           "billing_grace_started"
              .ok ({ inside := false, action := .grace_started,
                     grace := { active := true,
                                firstExitAt := some computedFirstExitAt,
                                graceExpiresAt := some computedGraceExpiresAt },
                     actionRequired := none }, st2)
            | some graceExpiresAt =>
              if graceExpiresAt ≤ args.capturedAt then
                match endSession st o.id graceExpiresAt with
                | .error e => .error e
                | .ok (_, st1) =>
                  let st2 := emitNoteEvent st1 booking.id
                               (graceExpiredKey o.id graceExpiresAt)
                               "billing_grace_expired_ended"
                  .ok ({ inside := false, action := .grace_expired_ended,
                         grace := { active := false,
                                    firstExitAt := o.firstExitAt,
                                    graceExpiresAt := some graceExpiresAt },
                         actionRequired := some
                           { type := "FO_REQUEST_ADMIN_TIME_ADJUSTMENT",
                             bookingId := booking.id, sessionId := o.id,
                             endedAt := graceExpiresAt } }, st2)
              else
                .ok ({ inside := false, action := .noop,
                       grace := graceStateFromSession o,
                       actionRequired := none }, st)
      | _, _, _ =>
        .ok ({ inside := false, action := .noop, grace := noGrace,
               actionRequired := none }, st)

/-- Stable insertion of a session into a list sorted by `startedAt`
ascending. -/
def insertByStart (s : BillingSession) : List BillingSession → List BillingSession
  | [] => [s]
  | t :: ts => if s.startedAt ≤ t.startedAt then s :: t :: ts
               else t :: insertByStart s ts

/-- `findMany … orderBy startedAt asc`: a stable sort by `startedAt`. -/
def sortByStart : List BillingSession → List BillingSession
  | [] => []
  | s :: ss => insertByStart s (sortByStart ss)

/-- One element of the per-session list `summarizeBooking` returns. -/
structure SessionView where
  id : ℕ
  foId : String
  startedAt : ℤ
  endedAt : Option ℤ
  durationSec : Option ℤ
  billableMin : Option ℤ
  billableCents : Option ℤ
  grace : GraceView
deriving Repr, DecidableEq

/-- The mapping of a stored session to its summary view inside
`summarizeBooking` (`?? null` on the nullable columns is the identity in
this embedding). -/
def mapSessionView (s : BillingSession) : SessionView :=
  { id := s.id, foId := s.foId, startedAt := s.startedAt, endedAt := s.endedAt,
    durationSec := s.durationSec, billableMin := s.billableMin,
    billableCents := s.billableCents,
    grace := { active := s.graceExpiresAt.isSome && s.endedAt.isNone,
               firstExitAt := s.firstExitAt,
               graceExpiresAt := s.graceExpiresAt } }

/-- The `totals` accumulator of `summarizeBooking`. -/
structure Totals where
  totalBillableMin : ℤ
  totalBillableCents : ℤ
deriving Repr, DecidableEq

/-- The summary `summarizeBooking` returns. -/
structure BookingSummary where
  bookingId : String
  sessions : List SessionView
  totals : Totals
deriving Repr, DecidableEq

/-- `BillingService.summarizeBooking`: map all of the booking's sessions
(ordered by `startedAt` ascending) and reduce the totals, a NULL
`billableMin`/`billableCents` contributing 0. -/
def summarizeBooking (st : DbState α) (bookingId : String) :
    Except ApiError BookingSummary :=
  match findBooking st bookingId with
  | none => .error (.notFound "BOOKING_NOT_FOUND")
  | some booking =>
    let sessions := sortByStart
      (st.sessions.filter fun s => s.bookingId == booking.id)
    let mapped := sessions.map mapSessionView
    let totals := mapped.foldl
      (fun acc s => { totalBillableMin := acc.totalBillableMin + s.billableMin.getD 0,
                      totalBillableCents := acc.totalBillableCents + s.billableCents.getD 0 })
      { totalBillableMin := 0, totalBillableCents := 0 }
    .ok { bookingId := booking.id, sessions := mapped, totals := totals }

/-- The nested legacy `finalization` object of a finalize result. -/
structure FinalizationSnapshot where
  finalBillableMin : ℤ
  finalBillableCents : ℤ
deriving Repr, DecidableEq

/-- The result of `finalizeBookingBilling`: the summary spread together
with the legacy compat fields. -/
structure FinalizeResult where
  bookingId : String
  sessions : List SessionView
  totals : Totals
  finalBillableMin : ℤ
  finalBillableCents : ℤ
  finalization : FinalizationSnapshot
deriving Repr, DecidableEq

/-- The truthiness test `args.idempotencyKey && args.idempotencyKey.length
> 0` of the source (a missing key and an empty key both fail it). -/
def presentKey : Option String → Bool
  | some s => s.length > 0
  | none => false

/-- The note text `billing_finalized…` with the optional reason and actor
suffixes. -/
def finalizedNote (base : String) (reason actorId : Option String) : String :=
  base ++ (match reason with | some r => ":" ++ r | none => "") ++
    (match actorId with | some a => ":actor=" ++ a | none => "")

/-- `BillingService.finalizeBookingBilling`: end any open session at
`endedAt` (default now), emit the audit note (also when there was no open
session), then return the summary plus the legacy final fields.  `reason`
and `actorId` model the truthy template-string branches, so `none` stands
for an absent or empty string. -/
def finalizeBookingBilling (st : DbState α) (bookingId : String)
    (endedAtArg : Option ℤ) (reason actorId idempotencyKey : Option String)
    (now : ℤ) : Except ApiError (FinalizeResult × DbState α) :=
  match findBooking st bookingId with
  | none => .error (.notFound "BOOKING_NOT_FOUND")
  | some booking =>
    let opn := getOpenSession st booking.id
    let endedAt := endedAtArg.getD now
    let afterClose : Except ApiError (DbState α) :=
      match opn with
      | some o =>
        match endSession st o.id endedAt with
        | .error e => .error e
        | .ok (_, st1) =>
          .ok (emitNoteEvent st1 booking.id
                (if presentKey idempotencyKey then
                  "billing:finalized:" ++ booking.id ++ ":" ++
                    (idempotencyKey.getD "")
                 else "billing:finalized:" ++ booking.id ++ ":" ++ isoString endedAt)
                (finalizedNote "billing_finalized" reason actorId))
      | none =>
        .ok (emitNoteEvent st booking.id
              (if presentKey idempotencyKey then
                "billing:finalized:no_open_session:" ++ booking.id ++ ":" ++
                  (idempotencyKey.getD "")
               else "billing:finalized:no_open_session:" ++ booking.id)
              (finalizedNote "billing_finalized_no_open_session" reason actorId))
    match afterClose with
    | .error e => .error e
    | .ok st2 =>
      match summarizeBooking st2 booking.id with
      | .error e => .error e
      | .ok summary =>
        .ok ({ bookingId := summary.bookingId, sessions := summary.sessions,
               totals := summary.totals,
               finalBillableMin := summary.totals.totalBillableMin,
               finalBillableCents := summary.totals.totalBillableCents,
               finalization :=
                 { finalBillableMin := summary.totals.totalBillableMin,
                   finalBillableCents := summary.totals.totalBillableCents } },
             st2)

/-- JavaScript `String.prototype.trim`, embedded executably: drop
whitespace from both ends of the character list. -/
def jsTrim (s : String) : String :=
  ⟨((s.data.dropWhile Char.isWhitespace).reverse.dropWhile
      Char.isWhitespace).reverse⟩

/-- The body a rejected (`fail`) refinalize request carries: the error
code, the message, and — for the gateway-state conflict — the existing
payment pointer details. -/
structure RefinalizeRejection where
  code : String
  message : String
  paymentStatus : Option String
deriving Repr, DecidableEq

/-- The outcome of an accepted or rejected refinalize request (thrown
exceptions are the `Except` layer). -/
inductive RefinalizeResponse
  | rejected (r : RefinalizeRejection)
  | finalized (f : BillingFinalization)
deriving Repr, DecidableEq

/-- `findUnique` of the payment pointer by booking id. -/
def findPayment (st : DbState α) (bookingId : String) : Option StripePayment :=
  st.payments.find? fun p => p.bookingId == bookingId

/-- `findUnique` of the finalization row by booking id. -/
def findFinalization (st : DbState α) (bookingId : String) :
    Option BillingFinalization :=
  st.finalizations.find? fun f => f.bookingId == bookingId

/-- `BillingFinalizationAdminController.refinalize`.  The two audit notes
are written with the same unique-key-and-swallow discipline as
`emitNoteEvent`; their JSON payloads are embedded as opaque tag strings
(nothing reads them back).  In the update of the finalization row,
`result.totalBillableMin`, `result.totalBillableCents` and
`result.minimumCents` are `undefined` property accesses in the source
(the totals live under `result.totals`), so `?? existing.…` keeps the
stored values; `result.finalBillableCents` is present and overwrites. -/
def refinalize (st : DbState α) (role : String) (userId : Option String)
    (bookingId idem reason0 : String) (now : ℤ) :
    Except ApiError (RefinalizeResponse × DbState α) :=
  if role ≠ "admin" then .error .forbidden
  else
    let reason := jsTrim reason0
    if idem = "" then
      .ok (.rejected ⟨"INVALID_REQUEST", "idempotencyKey is required", none⟩, st)
    else if reason = "" then
      .ok (.rejected ⟨"INVALID_REQUEST", "reason is required", none⟩, st)
    else
      match findBooking st bookingId with
      | none => .error (.notFound "BOOKING_NOT_FOUND")
      | some _ =>
        let ptr := findPayment st bookingId
        if ptr.elim false (fun p => p.status == "succeeded") then
          .ok (.rejected ⟨"INVALID_REQUEST",
                "Cannot re-finalize after payment has succeeded. Use adjustment/refund workflow.",
                ptr.map (·.status)⟩, st)
        else
          let finalizationKey := "ADMIN_REFINALIZE:" ++ bookingId ++ ":" ++ idem
          let st1 := emitNoteEvent st bookingId
                       ("ADMIN_REFINALIZE_INTENT:" ++ bookingId ++ ":" ++ idem)
                       ("ADMIN_REFINALIZE_INTENT:" ++ reason)
          match finalizeBookingBilling st1 bookingId none none none
                  (some finalizationKey) now with
          | .error e => .error e
          | .ok (result, st2) =>
            match findFinalization st2 bookingId with
            | none => .error (.notFound "BILLING_FINALIZATION_NOT_FOUND")
            | some existing =>
              let updated : BillingFinalization :=
                { existing with
                    finalBillableCents := result.finalBillableCents,
                    idempotencyKey := "BILLING_FINALIZED:" ++ bookingId ++ ":" ++
                      finalizationKey }
              let updRow := fun (f : BillingFinalization) =>
                if f.bookingId = bookingId then updated else f
              let st3 : DbState α :=
                { st2 with finalizations := st2.finalizations.map updRow }
              let st4 := emitNoteEvent st3 bookingId
                           ("ADMIN_REFINALIZE_EXECUTED:" ++ bookingId ++ ":" ++ idem)
                           ("ADMIN_REFINALIZE_EXECUTED:" ++ reason)
              .ok (.finalized updated, st4)

/-- One engine call, for stating sequence invariants. -/
inductive BillingOp (α : Type)
  | ping (args : PingArgs α)
  | start (bookingId foId : String) (startedAt : ℤ)
  | close (sessionId : ℕ) (endedAt : ℤ)
  | finalize (bookingId : String) (endedAtArg : Option ℤ)
      (reason actorId idempotencyKey : Option String) (now : ℤ)

/-- Apply one engine call to the store; a thrown call leaves the store
unchanged (storage failures are atomic — no partial transition). -/
def applyOp (hav : JsNum α → JsNum α → JsNum α → JsNum α → JsNum α)
    (st : DbState α) : BillingOp α → DbState α
  | .ping args =>
    match reconcileFromPing hav st args with
    | .ok (_, st') => st'
    | .error _ => st
  | .start bookingId foId startedAt => (startSession st bookingId foId startedAt).2
  | .close sessionId endedAt =>
    match endSession st sessionId endedAt with
    | .ok (_, st') => st'
    | .error _ => st
  | .finalize bookingId endedAtArg reason actorId idempotencyKey now =>
    match finalizeBookingBilling st bookingId endedAtArg reason actorId
            idempotencyKey now with
    | .ok (_, st') => st'
    | .error _ => st

/-- A concrete distance oracle used to instantiate the abstract
`haversineMeters` at concrete inputs.  It agrees with the float haversine
on every evaluation the concrete theorems perform: on identical finite
coordinates the haversine is exactly 0 even in IEEE arithmetic (both
angle differences are 0, so `a = 0` and `c = 2·atan2 0 1 = 0`); a NaN
coordinate propagates to a NaN distance through
`sin`/`cos`/`sqrt`/`atan2`; and distinct finite coordinates are mapped to
a far-outside stand-in of 1 000 000 m — the fixtures' only distinct
coordinates are a full degree of latitude apart at equal longitude,
about 111 km by the haversine, so both classify as outside every
threshold the fixtures use (≤ 100 m) and the engine behaviour is
identical. -/
def havModel : JsNum ℤ → JsNum ℤ → JsNum ℤ → JsNum ℤ → JsNum ℤ
  | some lat1, some lng1, some lat2, some lng2 =>
    if lat1 = lat2 ∧ lng1 = lng2 then some 0 else some 1000000
  | _, _, _, _ => none

/-- Billable minutes as the specification formula words it, over the
real-valued field: `ceil(max(0, ceil(durationSec / 60)) /
max(1, floor(billingIncrementMinutes))) * max(1,
floor(billingIncrementMinutes))`. -/
def specBillableMin (durationSec billingIncrementMinutes : ℤ) : ℤ :=
  let incrementMin : ℤ := max 1 ⌊(billingIncrementMinutes : ℚ)⌋
  let durationMin : ℤ := max 0 ⌈(durationSec : ℚ) / 60⌉
  ⌈(durationMin : ℚ) / (incrementMin : ℚ)⌉ * incrementMin

/-- Billable cents as the specification formula words it:
`floor((billableMin * hourlyRateCents + 30) / 60)`. -/
def specBillableCents (billableMin hourlyRateCents : ℤ) : ℤ :=
  ⌊((billableMin * hourlyRateCents + 30 : ℤ) : ℚ) / 60⌋

/-- Effective accuracy as the specification words it: the reported
accuracy when it is a finite positive number, else 0. -/
def specEffectiveAccuracy {α : Type} [LinearOrderedAddCommMonoid α]
    (accuracyMeters : Option (JsNum α)) : α :=
  match accuracyMeters with
  | some (some a) => if 0 < a then a else 0
  | _ => 0

/-- Fixture: an open session used by concrete witnesses. -/
def w10session : BillingSession :=
  { id := 7, bookingId := "b", foId := "f", startedAt := 5000 }

/-- Fixture: a store holding only `w10session`. -/
def w10state : DbState ℤ :=
  { bookings := [], sessions := [w10session], ledger := [], payments := [],
    finalizations := [], nextSessionId := 8 }

/-- The noop result with `inside = false` (guard returns and outside
no-ops). -/
def noopOutsideResult : ReconcileResult :=
  { inside := false, action := .noop, grace := noGrace, actionRequired := none }

/-- The noop result with `inside = true` (inside an open ungraced
session). -/
def insideNoopResult : ReconcileResult :=
  { inside := true, action := .noop, grace := noGrace, actionRequired := none }

/-- The session row `startSession` creates inside `reconcileFromPing`. -/
def newSession (st : DbState α) (p : PingArgs α) : BillingSession :=
  { id := st.nextSessionId, bookingId := p.bookingId, foId := p.foId,
    startedAt := p.capturedAt }

/-- Fixture: a booking with a valid site used by concrete engine runs. -/
def wBooking : Booking ℤ :=
  { id := "b1", foId := "f1", siteLat := some (some 10),
    siteLng := some (some 20), geofenceRadiusMeters := some (some 100) }

/-- Fixture: an open session of `wBooking` in grace since t = 60000 with
expiry at t = 960000. -/
def wGraceSession : BillingSession :=
  { id := 0, bookingId := "b1", foId := "f1", startedAt := 0,
    firstExitAt := some 60000, graceExpiresAt := some 960000,
    graceNotifiedAt := some 60000, outsideSinceAt := some 60000 }

/-- Fixture: a store with `wBooking` and `wGraceSession`. -/
def wGraceState : DbState ℤ :=
  { bookings := [wBooking], sessions := [wGraceSession], ledger := [],
    payments := [], finalizations := [], nextSessionId := 1 }

/-- Fixture: an outside ping captured well after grace expiry. -/
def wExpiredPing : PingArgs ℤ :=
  { bookingId := "b1", foId := "f1", pingLat := some 11, pingLng := some 20,
    accuracyM := none, capturedAt := 1200000 }

/-- Number of open sessions of a booking — the quantity the at-most-one
invariant bounds. -/
def openCount (st : DbState α) (bookingId : String) : ℕ :=
  (openSessions st bookingId).length

/-- Fixture: a store holding only `wBooking`, no sessions. -/
def wEmptyState : DbState ℤ :=
  { bookings := [wBooking], sessions := [], ledger := [], payments := [],
    finalizations := [], nextSessionId := 0 }

/-- Fixture: an inside ping for `wBooking` (at the site centre). -/
def wInsidePing (t : ℤ) : PingArgs ℤ :=
  { bookingId := "b1", foId := "f1", pingLat := some 10, pingLng := some 20,
    accuracyM := none, capturedAt := t }

/-- Fixture: an outside ping for `wBooking`. -/
def wOutsidePing (t : ℤ) : PingArgs ℤ :=
  { bookingId := "b1", foId := "f1", pingLat := some 11, pingLng := some 20,
    accuracyM := none, capturedAt := t }

/-- Fixture: a mixed call sequence for the invariant witness. -/
def wOps : List (BillingOp ℤ) :=
  [.ping (wInsidePing 0), .ping (wOutsidePing 60000),
   .ping (wInsidePing 120000), .start "b1" "f1" 50, .close 0 300000,
   .finalize "b1" none none none none 400000]

/-- Fixture: `wEmptyState` after the first inside ping created session 0
(the post-state of the first `reconcileFromPing` call). -/
def wStartedState : DbState ℤ :=
  { bookings := [wBooking], sessions := [newSession wEmptyState (wInsidePing 0)],
    ledger := [], payments := [], finalizations := [], nextSessionId := 1 }

/-- Fixture: a run whose ledger already holds both grace keys of session
0 — inside, exit, re-entry, second exit. -/
def wC6Ops : List (BillingOp ℤ) :=
  [.ping (wInsidePing 0), .ping (wOutsidePing 60000),
   .ping (wInsidePing 120000), .ping (wOutsidePing 180000)]

/-- Fixture: the store after `wC6Ops`. -/
def wC6State : DbState ℤ := wC6Ops.foldl (applyOp havModel) wEmptyState

/-- Fixture: `wGraceState` after an inside ping cleared the grace. -/
def wClearedState : DbState ℤ :=
  { bookings := [wBooking], sessions := [clearGraceFields wGraceSession],
    ledger := [⟨"b1", graceClearedKey 0, "billing_grace_cleared"⟩],
    payments := [], finalizations := [], nextSessionId := 1 }

/-- Fixture: a booking with no site configuration. -/
def wNoSiteBooking : Booking ℤ := { id := "b2", foId := "f1" }

/-- Fixture: a store holding only the site-less booking. -/
def wNoSiteState : DbState ℤ :=
  { bookings := [wNoSiteBooking], sessions := [], ledger := [], payments := [],
    finalizations := [], nextSessionId := 0 }

/-- Fixture: a ping for the site-less booking. -/
def wNoSitePing : PingArgs ℤ :=
  { bookingId := "b2", foId := "f1", pingLat := some 10, pingLng := some 20,
    accuracyM := none, capturedAt := 0 }

/-- Fixture: a ping for `wBooking` from a worker who is not assigned to
it. -/
def wWrongFoPing : PingArgs ℤ :=
  { bookingId := "b1", foId := "f2", pingLat := some 10, pingLng := some 20,
    accuracyM := none, capturedAt := 0 }

/-- Fixture: a ping with a NaN latitude. -/
def wNaNPing : PingArgs ℤ :=
  { bookingId := "b1", foId := "f1", pingLat := none, pingLng := some 20,
    accuracyM := none, capturedAt := 60000 }

/-- Fixture: a closed session of `wBooking` worth 15 min / 1625 cents. -/
def wClosedSession1 : BillingSession :=
  { id := 1, bookingId := "b1", foId := "f1", startedAt := 0,
    endedAt := some 60000, durationSec := some 60, billableMin := some 15,
    billableCents := some 1625 }

/-- Fixture: a second closed session of `wBooking`. -/
def wClosedSession2 : BillingSession :=
  { id := 2, bookingId := "b1", foId := "f1", startedAt := 100000,
    endedAt := some 200000, durationSec := some 100, billableMin := some 15,
    billableCents := some 1625 }

/-- Fixture: a store with the two closed sessions. -/
def wSummaryState : DbState ℤ :=
  { bookings := [wBooking], sessions := [wClosedSession1, wClosedSession2],
    ledger := [], payments := [], finalizations := [], nextSessionId := 3 }

/-- Fixture: the summary of `wSummaryState`. -/
def wSummary : BookingSummary :=
  { bookingId := "b1",
    sessions := [mapSessionView wClosedSession1, mapSessionView wClosedSession2],
    totals := { totalBillableMin := 30, totalBillableCents := 3250 } }

/-- Fixture: the finalize result of `wSummaryState` (no open session). -/
def wFinalizeRes : FinalizeResult :=
  { bookingId := "b1", sessions := wSummary.sessions, totals := wSummary.totals,
    finalBillableMin := 30, finalBillableCents := 3250,
    finalization := { finalBillableMin := 30, finalBillableCents := 3250 } }

/-- Fixture: `wSummaryState` after the finalize audit note. -/
def wFinalizedState : DbState ℤ :=
  { wSummaryState with
      ledger := [⟨"b1", "billing:finalized:no_open_session:b1",
        "billing_finalized_no_open_session"⟩] }

/-- Fixture: a settled payment pointer for `wBooking`. -/
def wSucceededPayment : StripePayment :=
  { bookingId := "b1", stripePaymentIntentId := "pi_1", status := "succeeded" }

/-- Fixture: an unsettled payment pointer for `wBooking`. -/
def wPendingPayment : StripePayment :=
  { bookingId := "b1", stripePaymentIntentId := "pi_1",
    status := "requires_capture" }

/-- Fixture: a stored finalization row for `wBooking`. -/
def wFinRow : BillingFinalization :=
  { bookingId := "b1", totalBillableMin := 30, totalBillableCents := 3250,
    minimumCents := 0, finalBillableMin := 30, finalBillableCents := 999,
    idempotencyKey := "BILLING_FINALIZED:b1:old" }

/-- Fixture: the summary store with a settled payment. -/
def wPaidState : DbState ℤ :=
  { wSummaryState with payments := [wSucceededPayment], finalizations := [wFinRow] }

/-- Fixture: the summary store with an unsettled payment. -/
def wUnpaidState : DbState ℤ :=
  { wSummaryState with payments := [wPendingPayment], finalizations := [wFinRow] }

/-- Fixture: `wUnpaidState` after the refinalize intent note. -/
def wIntentState : DbState ℤ :=
  { wUnpaidState with ledger := [⟨"b1", "ADMIN_REFINALIZE_INTENT:b1:k1", "ADMIN_REFINALIZE_INTENT:reason"⟩] }

/-- Fixture: `wIntentState` after the finalize audit note. -/
def wStfState : DbState ℤ :=
  { wIntentState with ledger := wIntentState.ledger ++ [⟨"b1", "billing:finalized:no_open_session:b1:ADMIN_REFINALIZE:b1:k1", "billing_finalized_no_open_session"⟩] }

/-- Fixture: the finalize result over `wUnpaidState` (payments do not
affect the totals, so it coincides with `wFinalizeRes`). -/
def wUnpaidFinalizeRes : FinalizeResult := wFinalizeRes

/-! ### Helper lemmas, then the claim theorems. -/

/-! ### Arithmetic bridges between the executable integer divisions and
the real-valued floor/ceiling of the specification. -/

theorem fdiv_eq_rat_floor (a b : ℤ) (hb : 0 < b) :
    a.fdiv b = ⌊(a : ℚ) / (b : ℚ)⌋ := by
  have hbn : ((b.toNat : ℕ) : ℤ) = b := Int.toNat_of_nonneg hb.le
  rw [Int.fdiv_eq_ediv a hb.le, ← hbn]
  push_cast
  exact (Rat.floor_intCast_div_natCast a b.toNat).symm

theorem ceilDivInt_eq_rat_ceil (a b : ℤ) (hb : 0 < b) :
    ceilDivInt a b = ⌈(a : ℚ) / (b : ℚ)⌉ := by
  rw [ceilDivInt, fdiv_eq_rat_floor _ b hb]
  push_cast
  rw [neg_div, Int.floor_neg, neg_neg]

/-- C1: `computeBillable` realises the specification formulas —
`billableMin = ceil(max(0, ceil(durationSec/60)) / max(1,
floor(billingIncrementMinutes))) * max(1, floor(billingIncrementMinutes))`
and `billableCents = floor((billableMin * hourlyRateCents + 30) / 60)` —
for every non-negative integer duration, positive rate and increment ≥ 1;
in particular `computeBillable 1 6500 15 = (15, 1625)` and a zero duration
yields zero minutes and zero cents. -/
theorem computeBillable_matches_spec (durationSec : ℕ)
    (hourlyRateCents billingIncrementMinutes : ℤ)
    (hr : 0 < hourlyRateCents) (hinc : 1 ≤ billingIncrementMinutes) :
    computeBillable durationSec hourlyRateCents billingIncrementMinutes =
      (specBillableMin durationSec billingIncrementMinutes,
       specBillableCents (specBillableMin durationSec billingIncrementMinutes)
         hourlyRateCents) ∧
    computeBillable 1 6500 15 = (15, 1625) ∧
    computeBillable 0 hourlyRateCents billingIncrementMinutes = (0, 0) := by
  have hincpos : (0 : ℤ) < billingIncrementMinutes := lt_of_lt_of_le one_pos hinc
  refine ⟨?_, by decide, ?_⟩
  · have hfloorinc : ⌊(billingIncrementMinutes : ℚ)⌋ = billingIncrementMinutes :=
      Int.floor_intCast billingIncrementMinutes
    have hmaxinc : max 1 billingIncrementMinutes = billingIncrementMinutes :=
      max_eq_right hinc
    have hd60 : ceilDivInt (durationSec : ℤ) 60 = ⌈((durationSec : ℤ) : ℚ) / 60⌉ := by
      have := ceilDivInt_eq_rat_ceil (durationSec : ℤ) 60 (by norm_num)
      simpa using this
    have hdm : ceilDivInt (max 0 ⌈(((durationSec : ℤ) : ℚ)) / 60⌉)
        billingIncrementMinutes =
        ⌈((max 0 ⌈(((durationSec : ℤ) : ℚ)) / 60⌉ : ℤ) : ℚ) /
          (billingIncrementMinutes : ℚ)⌉ :=
      ceilDivInt_eq_rat_ceil _ _ hincpos
    have hcents : ∀ bm : ℤ, (bm * hourlyRateCents + 30).fdiv 60 =
        specBillableCents bm hourlyRateCents := by
      intro bm
      rw [specBillableCents, fdiv_eq_rat_floor _ 60 (by norm_num)]
      norm_num
    simp only [computeBillable, specBillableMin, hfloorinc, hmaxinc, hd60, hdm,
      hcents]
  · simp only [computeBillable, ceilDivInt, neg_zero, Int.zero_fdiv, max_self,
      zero_mul, zero_add]
    decide

/-- Witness for C1 at the spec's concrete example `(1, 6500, 15)`. -/
theorem computeBillable_matches_spec_witness :
    (0 : ℤ) < 6500 ∧ (1 : ℤ) ≤ 15 ∧ computeBillable 1 6500 15 = (15, 1625) :=
  ⟨by decide, by decide,
   (computeBillable_matches_spec 1 6500 15 (by decide) (by decide)).2.1⟩

/-- C5: `isInsideGeofence` reports inside exactly when the distance
comparison `distance ≤ radius + effectiveAccuracy` holds between finite
values — a NaN distance or threshold makes it fail closed — with the
threshold built from the spec's effective accuracy; a ping at exactly
distance `R + a` is inside and any strictly greater distance is
outside. -/
theorem isInsideGeofence_spec {α : Type} [LinearOrderedAddCommMonoid α]
    (hav : JsNum α → JsNum α → JsNum α → JsNum α → JsNum α)
    (pingLat pingLng siteLat siteLng : JsNum α) (radiusMeters : JsNum α)
    (accuracyMeters : Option (JsNum α)) :
    (isInsideGeofence hav pingLat pingLng siteLat siteLng radiusMeters
        accuracyMeters).thresholdMeters =
      jsAddFin radiusMeters (specEffectiveAccuracy accuracyMeters) ∧
    ((isInsideGeofence hav pingLat pingLng siteLat siteLng radiusMeters
        accuracyMeters).inside = true ↔
      ∃ d t, hav pingLat pingLng siteLat siteLng = some d ∧
        jsAddFin radiusMeters (specEffectiveAccuracy accuracyMeters) = some t ∧
        d ≤ t) ∧
    (∀ R a, 0 ≤ R → 0 ≤ a → radiusMeters = some R →
      accuracyMeters = some (some a) →
      hav pingLat pingLng siteLat siteLng = some (R + a) →
      (isInsideGeofence hav pingLat pingLng siteLat siteLng radiusMeters
        accuracyMeters).inside = true) ∧
    (∀ R a d, 0 ≤ R → 0 ≤ a → radiusMeters = some R →
      accuracyMeters = some (some a) →
      hav pingLat pingLng siteLat siteLng = some d → R + a < d →
      (isInsideGeofence hav pingLat pingLng siteLat siteLng radiusMeters
        accuracyMeters).inside = false) := by
  have hinside : (isInsideGeofence hav pingLat pingLng siteLat siteLng
      radiusMeters accuracyMeters).inside =
      jsLe (hav pingLat pingLng siteLat siteLng)
        (jsAddFin radiusMeters (specEffectiveAccuracy accuracyMeters)) := rfl
  have heff : ∀ a : α, 0 ≤ a →
      @specEffectiveAccuracy α _ (some (some a)) = a := by
    intro a ha
    rcases lt_or_eq_of_le ha with hpos | hzero
    · simp [specEffectiveAccuracy, if_pos hpos]
    · simp [specEffectiveAccuracy, ← hzero]
  have hle_iff : ∀ x y : JsNum α, jsLe x y = true ↔
      ∃ d t, x = some d ∧ y = some t ∧ d ≤ t := by
    intro x y
    cases x <;> cases y <;> simp [jsLe]
  refine ⟨rfl, ?_, ?_, ?_⟩
  · rw [hinside, hle_iff]
  · intro R a _ ha hrad hacc hdist
    subst hrad hacc
    rw [hinside, hdist, heff a ha]
    simp [jsAddFin, jsLe]
  · intro R a d _ ha hrad hacc hdist hgt
    subst hrad hacc
    rw [hinside, hdist, heff a ha]
    simp [jsAddFin, jsLe, not_le.mpr hgt]

/-- Witness for C5 at a concrete integer instance: site and ping
coincide, radius 0, accuracy 0, so the distance `R + a = 0` is exactly on
the boundary and the evaluator reports inside. -/
theorem isInsideGeofence_spec_witness :
    (isInsideGeofence havModel (some 0) (some 0) (some 0) (some 0) (some 0)
      (some (some 0))).inside = true :=
  (isInsideGeofence_spec havModel (some 0) (some 0) (some 0) (some 0) (some 0)
      (some (some 0))).2.2.1 0 0 le_rfl le_rfl rfl rfl (by decide)

/-- C10: ending an open session at or before its `startedAt` succeeds and
freezes `durationSec = billableMin = billableCents = 0` — negative
elapsed time is clamped to zero before billing. -/
theorem endSession_clamps_nonpositive {α : Type}
    [LinearOrderedAddCommMonoid α] (st : DbState α) (sessionId : ℕ)
    (endedAt : ℤ) (s : BillingSession)
    (hfind : findSession st sessionId = some s)
    (hopen : s.endedAt = none)
    (hle : endedAt ≤ s.startedAt) :
    ∃ s2 st2, endSession st sessionId endedAt = .ok (s2, st2) ∧
      s2.endedAt = some endedAt ∧ s2.durationSec = some 0 ∧
      s2.billableMin = some 0 ∧ s2.billableCents = some 0 := by
  have hdur : max 0 ((endedAt - s.startedAt).fdiv 1000) = 0 := by
    have hdiff : endedAt - s.startedAt ≤ 0 := sub_nonpos.mpr hle
    have : (endedAt - s.startedAt).fdiv 1000 ≤ 0 := by
      rw [fdiv_eq_rat_floor _ 1000 (by norm_num)]
      have hq : ((endedAt - s.startedAt : ℤ) : ℚ) / 1000 ≤ 0 := by
        apply div_nonpos_of_nonpos_of_nonneg
        · exact_mod_cast hdiff
        · norm_num
      calc ⌊((endedAt - s.startedAt : ℤ) : ℚ) / 1000⌋
          ≤ ⌊(0 : ℚ)⌋ := Int.floor_le_floor hq
        _ = 0 := Int.floor_zero
    exact max_eq_left this
  have hb : computeBillable 0 getPricingPolicy.hourlyRateCents
      getPricingPolicy.billingIncrementMinutes = (0, 0) := by decide
  have hres : endSession st sessionId endedAt = .ok (closeFields endedAt 0 0 0 s, { st with sessions := updateSession st.sessions sessionId (closeFields endedAt 0 0 0) }) := by
    simp only [endSession, hfind, hopen, Option.isSome_none, Bool.false_eq_true,
      if_false, hdur, hb]
  exact ⟨_, _, hres, rfl, rfl, rfl, rfl⟩

/-- Witness for C10: a concrete open session ended one second before it
started. -/
theorem endSession_clamps_nonpositive_witness :
    findSession w10state 7 = some w10session ∧ w10session.endedAt = none ∧
    (4000 : ℤ) ≤ w10session.startedAt ∧
    ∃ s2 st2, endSession w10state 7 4000 = .ok (s2, st2) ∧
      s2.endedAt = some 4000 ∧ s2.durationSec = some 0 ∧
      s2.billableMin = some 0 ∧ s2.billableCents = some 0 :=
  ⟨by decide, by decide, by decide,
   endSession_clamps_nonpositive w10state 7 4000 w10session
     (by decide) (by decide) (by decide)⟩

/-! ### Branch characterisations of `reconcileFromPing`. -/

theorem reconcile_booking_none {α : Type} [LinearOrderedAddCommMonoid α]
    (hav : JsNum α → JsNum α → JsNum α → JsNum α → JsNum α)
    (st : DbState α) (p : PingArgs α)
    (hbk : findBooking st p.bookingId = none) :
    reconcileFromPing hav st p = .error (.notFound "BOOKING_NOT_FOUND") := by
  simp only [reconcileFromPing, hbk]

theorem reconcile_fo_mismatch {α : Type} [LinearOrderedAddCommMonoid α]
    (hav : JsNum α → JsNum α → JsNum α → JsNum α → JsNum α)
    (st : DbState α) (p : PingArgs α) (bk : Booking α)
    (hbk : findBooking st p.bookingId = some bk) (hfo : bk.foId ≠ p.foId) :
    reconcileFromPing hav st p = .ok (noopOutsideResult, st) := by
  simp only [reconcileFromPing, hbk, if_pos hfo, noopOutsideResult]

theorem graceMs_value : max 0 (getPricingPolicy.graceSeconds * 1000) = (900000 : ℤ) := by
  decide

theorem reconcile_site_invalid {α : Type} [LinearOrderedAddCommMonoid α]
    (hav : JsNum α → JsNum α → JsNum α → JsNum α → JsNum α)
    (st : DbState α) (p : PingArgs α) (bk : Booking α)
    (hbk : findBooking st p.bookingId = some bk) (hfo : bk.foId = p.foId)
    (hsite : finiteField bk.siteLat = none ∨ finiteField bk.siteLng = none ∨
      finiteField bk.geofenceRadiusMeters = none) :
    reconcileFromPing hav st p = .ok (noopOutsideResult, st) := by
  simp only [reconcileFromPing, hbk, hfo, ne_eq, not_true_eq_false, if_false,
    noopOutsideResult]
  split
  · rcases hsite with h | h | h <;> simp_all
  · rfl

theorem reconcile_inside_no_open {α : Type} [LinearOrderedAddCommMonoid α]
    (hav : JsNum α → JsNum α → JsNum α → JsNum α → JsNum α)
    (st : DbState α) (p : PingArgs α) (bk : Booking α) (la ln rad : α)
    (hbk : findBooking st p.bookingId = some bk) (hfo : bk.foId = p.foId)
    (hla : finiteField bk.siteLat = some la)
    (hln : finiteField bk.siteLng = some ln)
    (hrad : finiteField bk.geofenceRadiusMeters = some rad)
    (hin : (isInsideGeofence hav p.pingLat p.pingLng (some la) (some ln)
      (some rad) p.accuracyM).inside = true)
    (hopen : getOpenSession st p.bookingId = none) :
    reconcileFromPing hav st p =
      .ok ({ inside := true, action := .started, grace := noGrace,
             actionRequired := none },
           { st with sessions := st.sessions ++ [newSession st p],
                     nextSessionId := st.nextSessionId + 1 }) := by
  have hbkid : bk.id = p.bookingId := by
    have := List.find?_some hbk
    simpa using this
  simp only [reconcileFromPing, hbk, hfo, ne_eq, not_true_eq_false, if_false,
    hla, hln, hrad, hbkid, hin, if_true, hopen, startSession, newSession]

theorem reconcile_inside_grace_clear {α : Type} [LinearOrderedAddCommMonoid α]
    (hav : JsNum α → JsNum α → JsNum α → JsNum α → JsNum α)
    (st : DbState α) (p : PingArgs α) (bk : Booking α) (la ln rad : α)
    (o : BillingSession) (g : ℤ)
    (hbk : findBooking st p.bookingId = some bk) (hfo : bk.foId = p.foId)
    (hla : finiteField bk.siteLat = some la)
    (hln : finiteField bk.siteLng = some ln)
    (hrad : finiteField bk.geofenceRadiusMeters = some rad)
    (hin : (isInsideGeofence hav p.pingLat p.pingLng (some la) (some ln)
      (some rad) p.accuracyM).inside = true)
    (hopen : getOpenSession st p.bookingId = some o)
    (hg : o.graceExpiresAt = some g) :
    reconcileFromPing hav st p =
      .ok ({ inside := true, action := .grace_cleared, grace := noGrace,
             actionRequired := none },
           emitNoteEvent
             { st with sessions := updateSession st.sessions o.id clearGraceFields }
             p.bookingId (graceClearedKey o.id) "billing_grace_cleared") := by
  have hbkid : bk.id = p.bookingId := by
    have := List.find?_some hbk
    simpa using this
  simp only [reconcileFromPing, hbk, hfo, ne_eq, not_true_eq_false, if_false,
    hla, hln, hrad, hbkid, hin, if_true, hopen, hg, Option.isSome_some]

theorem reconcile_inside_open_nograce {α : Type} [LinearOrderedAddCommMonoid α]
    (hav : JsNum α → JsNum α → JsNum α → JsNum α → JsNum α)
    (st : DbState α) (p : PingArgs α) (bk : Booking α) (la ln rad : α)
    (o : BillingSession)
    (hbk : findBooking st p.bookingId = some bk) (hfo : bk.foId = p.foId)
    (hla : finiteField bk.siteLat = some la)
    (hln : finiteField bk.siteLng = some ln)
    (hrad : finiteField bk.geofenceRadiusMeters = some rad)
    (hin : (isInsideGeofence hav p.pingLat p.pingLng (some la) (some ln)
      (some rad) p.accuracyM).inside = true)
    (hopen : getOpenSession st p.bookingId = some o)
    (hg : o.graceExpiresAt = none) :
    reconcileFromPing hav st p = .ok (insideNoopResult, st) := by
  have hbkid : bk.id = p.bookingId := by
    have := List.find?_some hbk
    simpa using this
  simp only [reconcileFromPing, hbk, hfo, ne_eq, not_true_eq_false, if_false,
    hla, hln, hrad, hbkid, hin, if_true, hopen, hg, Option.isSome_none,
    Bool.false_eq_true, insideNoopResult]

theorem reconcile_outside_no_open {α : Type} [LinearOrderedAddCommMonoid α]
    (hav : JsNum α → JsNum α → JsNum α → JsNum α → JsNum α)
    (st : DbState α) (p : PingArgs α) (bk : Booking α) (la ln rad : α)
    (hbk : findBooking st p.bookingId = some bk) (hfo : bk.foId = p.foId)
    (hla : finiteField bk.siteLat = some la)
    (hln : finiteField bk.siteLng = some ln)
    (hrad : finiteField bk.geofenceRadiusMeters = some rad)
    (hin : (isInsideGeofence hav p.pingLat p.pingLng (some la) (some ln)
      (some rad) p.accuracyM).inside = false)
    (hopen : getOpenSession st p.bookingId = none) :
    reconcileFromPing hav st p = .ok (noopOutsideResult, st) := by
  have hbkid : bk.id = p.bookingId := by
    have := List.find?_some hbk
    simpa using this
  simp only [reconcileFromPing, hbk, hfo, ne_eq, not_true_eq_false, if_false,
    hla, hln, hrad, hbkid, hin, Bool.false_eq_true, hopen, noopOutsideResult]

theorem reconcile_outside_grace_start {α : Type} [LinearOrderedAddCommMonoid α]
    (hav : JsNum α → JsNum α → JsNum α → JsNum α → JsNum α)
    (st : DbState α) (p : PingArgs α) (bk : Booking α) (la ln rad : α)
    (o : BillingSession)
    (hbk : findBooking st p.bookingId = some bk) (hfo : bk.foId = p.foId)
    (hla : finiteField bk.siteLat = some la)
    (hln : finiteField bk.siteLng = some ln)
    (hrad : finiteField bk.geofenceRadiusMeters = some rad)
    (hin : (isInsideGeofence hav p.pingLat p.pingLng (some la) (some ln)
      (some rad) p.accuracyM).inside = false)
    (hopen : getOpenSession st p.bookingId = some o)
    (hg : o.graceExpiresAt = none) :
    reconcileFromPing hav st p =
      .ok ({ inside := false, action := .grace_started,
             grace := { active := true,
                        firstExitAt := some (o.firstExitAt.getD p.capturedAt),
                        graceExpiresAt :=
                          some (o.firstExitAt.getD p.capturedAt + 900000) },
             actionRequired := none },
           emitNoteEvent
             { st with sessions := updateSession st.sessions o.id (setGraceFields (o.firstExitAt.getD p.capturedAt) (o.firstExitAt.getD p.capturedAt + 900000) p.capturedAt) }
             p.bookingId
             (graceStartedKey o.id (o.firstExitAt.getD p.capturedAt))
             "billing_grace_started") := by
  have hbkid : bk.id = p.bookingId := by
    have := List.find?_some hbk
    simpa using this
  simp only [reconcileFromPing, hbk, hfo, ne_eq, not_true_eq_false, if_false,
    hla, hln, hrad, hbkid, hin, Bool.false_eq_true, hopen, hg, graceMs_value]

theorem reconcile_outside_expired {α : Type} [LinearOrderedAddCommMonoid α]
    (hav : JsNum α → JsNum α → JsNum α → JsNum α → JsNum α)
    (st : DbState α) (p : PingArgs α) (bk : Booking α) (la ln rad : α)
    (o s1 : BillingSession) (g : ℤ) (st1 : DbState α)
    (hbk : findBooking st p.bookingId = some bk) (hfo : bk.foId = p.foId)
    (hla : finiteField bk.siteLat = some la)
    (hln : finiteField bk.siteLng = some ln)
    (hrad : finiteField bk.geofenceRadiusMeters = some rad)
    (hin : (isInsideGeofence hav p.pingLat p.pingLng (some la) (some ln)
      (some rad) p.accuracyM).inside = false)
    (hopen : getOpenSession st p.bookingId = some o)
    (hg : o.graceExpiresAt = some g)
    (hexp : g ≤ p.capturedAt)
    (hend : endSession st o.id g = .ok (s1, st1)) :
    reconcileFromPing hav st p =
      .ok ({ inside := false, action := .grace_expired_ended,
             grace := { active := false, firstExitAt := o.firstExitAt,
                        graceExpiresAt := some g },
             actionRequired := some
               { type := "FO_REQUEST_ADMIN_TIME_ADJUSTMENT",
                 bookingId := p.bookingId, sessionId := o.id, endedAt := g } },
           emitNoteEvent st1 p.bookingId (graceExpiredKey o.id g)
             "billing_grace_expired_ended") := by
  have hbkid : bk.id = p.bookingId := by
    have := List.find?_some hbk
    simpa using this
  simp only [reconcileFromPing, hbk, hfo, ne_eq, not_true_eq_false, if_false,
    hla, hln, hrad, hbkid, hin, Bool.false_eq_true, hopen, hg, if_pos hexp,
    hend]

theorem reconcile_outside_in_grace {α : Type} [LinearOrderedAddCommMonoid α]
    (hav : JsNum α → JsNum α → JsNum α → JsNum α → JsNum α)
    (st : DbState α) (p : PingArgs α) (bk : Booking α) (la ln rad : α)
    (o : BillingSession) (g : ℤ)
    (hbk : findBooking st p.bookingId = some bk) (hfo : bk.foId = p.foId)
    (hla : finiteField bk.siteLat = some la)
    (hln : finiteField bk.siteLng = some ln)
    (hrad : finiteField bk.geofenceRadiusMeters = some rad)
    (hin : (isInsideGeofence hav p.pingLat p.pingLng (some la) (some ln)
      (some rad) p.accuracyM).inside = false)
    (hopen : getOpenSession st p.bookingId = some o)
    (hg : o.graceExpiresAt = some g)
    (hexp : p.capturedAt < g) :
    reconcileFromPing hav st p =
      .ok ({ inside := false, action := .noop,
             grace := graceStateFromSession o, actionRequired := none }, st) := by
  have hbkid : bk.id = p.bookingId := by
    have := List.find?_some hbk
    simpa using this
  simp only [reconcileFromPing, hbk, hfo, ne_eq, not_true_eq_false, if_false,
    hla, hln, hrad, hbkid, hin, Bool.false_eq_true, hopen, hg,
    if_neg (not_le.mpr hexp)]

/-! ### List and store helper lemmas. -/

theorem pickLatest_cons_isSome (s : BillingSession) (rest : List BillingSession) :
    (pickLatest (s :: rest)).isSome = true := by
  simp only [pickLatest]
  cases pickLatest rest with
  | none => rfl
  | some b => by_cases h : s.startedAt < b.startedAt <;> simp [h]

theorem pickLatest_eq_none {l : List BillingSession} :
    pickLatest l = none ↔ l = [] := by
  cases l with
  | nil => simp [pickLatest]
  | cons s rest =>
    constructor
    · intro h
      have := pickLatest_cons_isSome s rest
      rw [h] at this
      simp at this
    · intro h
      simp at h

theorem pickLatest_mem {l : List BillingSession} {o : BillingSession}
    (h : pickLatest l = some o) : o ∈ l := by
  induction l with
  | nil => simp [pickLatest] at h
  | cons s rest ih =>
    simp only [pickLatest] at h
    cases hp : pickLatest rest with
    | none =>
      rw [hp] at h
      cases h
      exact List.mem_cons_self _ _
    | some b =>
      rw [hp] at h
      simp only [] at h
      by_cases hlt : s.startedAt < b.startedAt
      · rw [if_pos hlt] at h
        cases h
        exact List.mem_cons_of_mem _ (ih hp)
      · rw [if_neg hlt] at h
        cases h
        exact List.mem_cons_self _ _

theorem getOpenSession_eq_none {α : Type} [LinearOrderedAddCommMonoid α]
    {st : DbState α} {bid : String} :
    getOpenSession st bid = none ↔ openSessions st bid = [] :=
  pickLatest_eq_none

theorem getOpenSession_mem {α : Type} [LinearOrderedAddCommMonoid α]
    {st : DbState α} {bid : String} {o : BillingSession}
    (h : getOpenSession st bid = some o) :
    o ∈ st.sessions ∧ o.bookingId = bid ∧ o.endedAt = none := by
  have hmem := pickLatest_mem h
  simp only [openSessions, List.mem_filter, Bool.and_eq_true, beq_iff_eq] at hmem
  exact ⟨hmem.1, hmem.2.1, hmem.2.2⟩

theorem filter_map_congr {β : Type} (g : β → β) (p : β → Bool) (l : List β)
    (h : ∀ a ∈ l, p (g a) = p a) :
    (l.map g).filter p = (l.filter p).map g := by
  induction l with
  | nil => rfl
  | cons a rest ih =>
    have ha := h a (List.mem_cons_self _ _)
    have hrest := fun b hb => h b (List.mem_cons_of_mem _ hb)
    cases hp : p a with
    | true => simp [List.filter_cons, ha, hp, ih hrest]
    | false => simp [List.filter_cons, ha, hp, ih hrest]

theorem length_filter_map_le {β : Type} (g : β → β) (p : β → Bool) (l : List β)
    (h : ∀ a ∈ l, p (g a) = true → p a = true) :
    ((l.map g).filter p).length ≤ (l.filter p).length := by
  induction l with
  | nil => simp
  | cons a rest ih =>
    have ha := h a (List.mem_cons_self _ _)
    have hrest := fun b hb => h b (List.mem_cons_of_mem _ hb)
    cases hp : p (g a) with
    | true =>
      simp only [List.map_cons, List.filter_cons, hp, ha hp, List.length_cons]
      exact Nat.succ_le_succ (ih hrest)
    | false =>
      cases hq : p a with
      | true =>
        simp only [List.map_cons, List.filter_cons, hp, hq, List.length_cons]
        exact Nat.le_succ_of_le (ih hrest)
      | false =>
        simp only [List.map_cons, List.filter_cons, hp, hq]
        exact ih hrest

theorem filter_map_eq_nil {β : Type} (g : β → β) (p : β → Bool) (l : List β)
    (h : ∀ a ∈ l, p (g a) = false) : (l.map g).filter p = [] := by
  induction l with
  | nil => rfl
  | cons a rest ih =>
    have ha := h a (List.mem_cons_self _ _)
    have hrest := fun b hb => h b (List.mem_cons_of_mem _ hb)
    simp [List.filter_cons, ha, ih hrest]

theorem eq_singleton_of_mem_of_length_le_one {β : Type} {l : List β} {a : β}
    (ha : a ∈ l) (hl : l.length ≤ 1) : l = [a] := by
  cases l with
  | nil => simp at ha
  | cons b rest =>
    cases rest with
    | nil =>
      simp only [List.mem_singleton] at ha
      rw [ha]
    | cons c rest2 => simp at hl

theorem find?_map_update {β : Type} (p : β → Bool) (g : β → β) {l : List β}
    {o : β} (h : l.find? p = some o)
    (hg1 : ∀ x, p x = true → p (g x) = true)
    (hg0 : ∀ x, p x = false → g x = x) :
    (l.map g).find? p = some (g o) := by
  induction l with
  | nil => simp [List.find?] at h
  | cons a rest ih =>
    cases hp : p a with
    | true =>
      rw [List.find?_cons_of_pos _ hp] at h
      cases h
      rw [List.map_cons, List.find?_cons_of_pos _ (hg1 _ hp)]
    | false =>
      rw [List.find?_cons_of_neg _ (by simp [hp])] at h
      rw [List.map_cons, hg0 _ hp, List.find?_cons_of_neg _ (by simp [hp])]
      exact ih h

theorem find?_id_of_nodup {l : List BillingSession} {o : BillingSession}
    (ho : o ∈ l) (hnd : (l.map (fun s => s.id)).Nodup) :
    l.find? (fun s => s.id == o.id) = some o := by
  induction l with
  | nil => simp at ho
  | cons a rest ih =>
    rcases List.mem_cons.mp ho with rfl | hrest
    · rw [List.find?_cons_of_pos _ (by simp)]
    · have hne : a.id ≠ o.id := by
        intro hid
        have : o.id ∈ rest.map (fun s => s.id) :=
          List.mem_map.mpr ⟨o, hrest, rfl⟩
        rw [List.map_cons] at hnd
        exact (List.nodup_cons.mp hnd).1 (hid ▸ this)
      rw [List.find?_cons_of_neg _ (by simp [hne])]
      exact ih hrest ((List.nodup_cons.mp (by rw [List.map_cons] at hnd; exact hnd)).2)

/-- C2: a ping outside the geofence against a session in grace, captured
at or after `graceExpiresAt`, closes the session with `endedAt =
graceExpiresAt` (not the ping's `capturedAt`), reports
`grace_expired_ended`, and returns the
`FO_REQUEST_ADMIN_TIME_ADJUSTMENT` action naming the booking, the session
and `endedAt = graceExpiresAt`. -/
theorem reconcile_grace_expiry_closes_at_expiry {α : Type}
    [LinearOrderedAddCommMonoid α]
    (hav : JsNum α → JsNum α → JsNum α → JsNum α → JsNum α)
    (st : DbState α) (p : PingArgs α) (bk : Booking α) (la ln rad : α)
    (o : BillingSession) (g : ℤ)
    (hbk : findBooking st p.bookingId = some bk) (hfo : bk.foId = p.foId)
    (hla : finiteField bk.siteLat = some la)
    (hln : finiteField bk.siteLng = some ln)
    (hrad : finiteField bk.geofenceRadiusMeters = some rad)
    (hin : (isInsideGeofence hav p.pingLat p.pingLng (some la) (some ln)
      (some rad) p.accuracyM).inside = false)
    (hopen : getOpenSession st p.bookingId = some o)
    (hg : o.graceExpiresAt = some g)
    (hexp : g ≤ p.capturedAt)
    (hfind : findSession st o.id = some o) :
    ∃ r st2, reconcileFromPing hav st p = .ok (r, st2) ∧
      r.inside = false ∧
      r.action = .grace_expired_ended ∧
      r.actionRequired = some
        { type := "FO_REQUEST_ADMIN_TIME_ADJUSTMENT", bookingId := p.bookingId,
          sessionId := o.id, endedAt := g } ∧
      ∃ s2, findSession st2 o.id = some s2 ∧ s2.endedAt = some g := by
  have hoe : o.endedAt = none := (getOpenSession_mem hopen).2.2
  set dur : ℤ := max 0 ((g - o.startedAt).fdiv 1000) with hdur
  set b := computeBillable dur getPricingPolicy.hourlyRateCents
    getPricingPolicy.billingIncrementMinutes with hb
  have hend : endSession st o.id g =
      .ok (closeFields g dur b.1 b.2 o, { st with sessions := updateSession st.sessions o.id (closeFields g dur b.1 b.2) }) := by
    simp only [endSession, hfind, hoe, Option.isSome_none, Bool.false_eq_true,
      if_false, hdur, hb]
  have hrec := reconcile_outside_expired hav st p bk la ln rad o _ g _ hbk hfo
    hla hln hrad hin hopen hg hexp hend
  refine ⟨_, _, hrec, rfl, rfl, rfl, closeFields g dur b.1 b.2 o, ?_, rfl⟩
  have hg1 : ∀ x : BillingSession, (x.id == o.id) = true →
      ((if x.id = o.id then closeFields g dur b.1 b.2 x else x).id == o.id) = true := by
    intro x hx
    simp only [beq_iff_eq] at hx
    simp [hx, closeFields]
  have hg0 : ∀ x : BillingSession, (x.id == o.id) = false →
      (if x.id = o.id then closeFields g dur b.1 b.2 x else x) = x := by
    intro x hx
    simp only [beq_eq_false_iff_ne, ne_eq] at hx
    simp [hx]
  have hfind2 : st.sessions.find? (fun s => s.id == o.id) = some o := hfind
  have hfm := find?_map_update (fun s : BillingSession => s.id == o.id)
    (fun s => if s.id = o.id then closeFields g dur b.1 b.2 s else s) hfind2 hg1 hg0
  exact hfm.trans (by simp)

/-- Witness for C2: the fixture grace session, an outside ping at
t = 1200000, close at the stored expiry t = 960000. -/
theorem reconcile_grace_expiry_closes_at_expiry_witness :
    findBooking wGraceState "b1" = some wBooking ∧
    getOpenSession wGraceState "b1" = some wGraceSession ∧
    (isInsideGeofence havModel (some 11) (some 20) (some 10) (some 20)
      (some 100) none).inside = false ∧
    ∃ r st2, reconcileFromPing havModel wGraceState wExpiredPing = .ok (r, st2) ∧
      r.inside = false ∧
      r.action = .grace_expired_ended ∧
      r.actionRequired = some
        { type := "FO_REQUEST_ADMIN_TIME_ADJUSTMENT", bookingId := "b1",
          sessionId := 0, endedAt := 960000 } ∧
      ∃ s2, findSession st2 0 = some s2 ∧ s2.endedAt = some 960000 :=
  ⟨by decide, by decide, by decide,
   reconcile_grace_expiry_closes_at_expiry havModel wGraceState wExpiredPing
     wBooking 10 20 100 wGraceSession 960000 (by decide) (by decide)
     (by decide) (by decide) (by decide) (by decide) (by decide) (by decide)
     (by decide) (by decide)⟩

/-! ### Open-session counting. -/

theorem openCount_update_preserving {α : Type} [LinearOrderedAddCommMonoid α]
    (st : DbState α) (sid : ℕ) (f : BillingSession → BillingSession)
    (hf : ∀ s, (f s).bookingId = s.bookingId ∧ (f s).endedAt = s.endedAt)
    (bid : String) :
    openCount { st with sessions := updateSession st.sessions sid f } bid =
      openCount st bid := by
  have hcong : ∀ a ∈ st.sessions,
      ((if a.id = sid then f a else a).bookingId == bid &&
        (if a.id = sid then f a else a).endedAt == none) =
      (a.bookingId == bid && a.endedAt == none) := by
    intro a _
    by_cases h : a.id = sid
    · simp [h, (hf a).1, (hf a).2]
    · simp [h]
  unfold openCount openSessions updateSession
  rw [filter_map_congr _ _ _ hcong, List.length_map]

theorem openCount_update_close_le {α : Type} [LinearOrderedAddCommMonoid α]
    (st : DbState α) (sid : ℕ) (ed dur bm bc : ℤ) (bid : String) :
    openCount { st with sessions := updateSession st.sessions sid (closeFields ed dur bm bc) } bid ≤
      openCount st bid := by
  unfold openCount openSessions updateSession
  apply length_filter_map_le
  intro a _ hpa
  by_cases h : a.id = sid
  · simp only [h, if_pos] at hpa
    simp [closeFields] at hpa
  · simpa [h] using hpa

theorem openCount_start_le {α : Type} [LinearOrderedAddCommMonoid α]
    (st : DbState α) (b f : String) (t : ℤ) (bid : String) :
    openCount (startSession st b f t).2 bid ≤ max (openCount st bid) 1 := by
  unfold startSession
  cases h : getOpenSession st b with
  | some o => exact le_max_left _ _
  | none =>
    have hop : openSessions st b = [] := getOpenSession_eq_none.mp h
    simp only [openCount, openSessions, List.filter_append]
    by_cases hbid : bid = b
    · subst hbid
      have : st.sessions.filter
          (fun s => s.bookingId == bid && s.endedAt == none) = [] := hop
      rw [this]
      simp
    · have : List.filter (fun s => s.bookingId == bid && s.endedAt == none)
          ([{ id := st.nextSessionId, bookingId := b, foId := f,
              startedAt := t }] : List BillingSession) = [] := by
        have hbb : (b == bid) = false := beq_eq_false_iff_ne.mpr (Ne.symm hbid)
        simp [List.filter, hbb]
      rw [this, List.append_nil]
      exact le_max_left _ _

theorem openCount_emit {α : Type} [LinearOrderedAddCommMonoid α]
    (st : DbState α) (b k n : String) (bid : String) :
    openCount (emitNoteEvent st b k n) bid = openCount st bid := rfl

theorem find?_id_isSome_of_mem {l : List BillingSession} {o : BillingSession}
    (ho : o ∈ l) : (l.find? fun s => s.id == o.id).isSome = true := by
  induction l with
  | nil => simp at ho
  | cons a rest ih =>
    cases hpa : (a.id == o.id) with
    | true => simp [List.find?, hpa]
    | false =>
      rcases List.mem_cons.mp ho with rfl | hrest
      · simp at hpa
      · simpa [List.find?, hpa] using ih hrest

theorem findSession_isSome_of_mem {α : Type} [LinearOrderedAddCommMonoid α]
    {st : DbState α} {o : BillingSession} (ho : o ∈ st.sessions) :
    (findSession st o.id).isSome = true :=
  find?_id_isSome_of_mem ho

theorem openCount_endSession_le {α : Type} [LinearOrderedAddCommMonoid α]
    (st : DbState α) (sid : ℕ) (ed : ℤ) (bid : String) :
    ∀ s' st', endSession st sid ed = .ok (s', st') →
      openCount st' bid ≤ openCount st bid := by
  intro s' st' h
  cases hfs : findSession st sid with
  | none =>
    simp only [endSession, hfs] at h
    exact Except.noConfusion h
  | some s2 =>
    simp only [endSession, hfs] at h
    by_cases he : s2.endedAt.isSome = true
    · rw [if_pos he] at h
      simp only [Except.ok.injEq, Prod.mk.injEq] at h
      rw [← h.2]
    · rw [if_neg he] at h
      simp only [Except.ok.injEq, Prod.mk.injEq] at h
      rw [← h.2]
      exact openCount_update_close_le st sid ed _ _ _ bid

theorem openCount_finalize_le {α : Type} [LinearOrderedAddCommMonoid α]
    (st : DbState α) (b : String) (e : Option ℤ)
    (r a k : Option String) (now : ℤ) (bid : String) :
    ∀ res st', finalizeBookingBilling st b e r a k now = .ok (res, st') →
      openCount st' bid ≤ openCount st bid := by
  intro res st' h
  cases hbk : findBooking st b with
  | none =>
    simp only [finalizeBookingBilling, hbk] at h
    exact Except.noConfusion h
  | some bk =>
    simp only [finalizeBookingBilling, hbk] at h
    cases hop : getOpenSession st bk.id with
    | none =>
      simp only [hop] at h
      split at h
      · exact Except.noConfusion h
      · simp only [Except.ok.injEq, Prod.mk.injEq] at h
        rw [← h.2]
        exact le_of_eq (openCount_emit st _ _ _ bid)
    | some o =>
      simp only [hop] at h
      cases hend : endSession st o.id (e.getD now) with
      | error err =>
        simp only [hend] at h
        exact Except.noConfusion h
      | ok pr =>
        obtain ⟨s1, st1⟩ := pr
        simp only [hend] at h
        split at h
        · exact Except.noConfusion h
        · simp only [Except.ok.injEq, Prod.mk.injEq] at h
          rw [← h.2]
          calc openCount (emitNoteEvent st1 bk.id _ _) bid
              = openCount st1 bid := openCount_emit st1 _ _ _ bid
            _ ≤ openCount st bid := openCount_endSession_le st o.id _ bid s1 st1 hend

theorem reconcile_outside_expired_error {α : Type} [LinearOrderedAddCommMonoid α]
    (hav : JsNum α → JsNum α → JsNum α → JsNum α → JsNum α)
    (st : DbState α) (p : PingArgs α) (bk : Booking α) (la ln rad : α)
    (o : BillingSession) (g : ℤ) (err : ApiError)
    (hbk : findBooking st p.bookingId = some bk) (hfo : bk.foId = p.foId)
    (hla : finiteField bk.siteLat = some la)
    (hln : finiteField bk.siteLng = some ln)
    (hrad : finiteField bk.geofenceRadiusMeters = some rad)
    (hin : (isInsideGeofence hav p.pingLat p.pingLng (some la) (some ln)
      (some rad) p.accuracyM).inside = false)
    (hopen : getOpenSession st p.bookingId = some o)
    (hg : o.graceExpiresAt = some g)
    (hexp : g ≤ p.capturedAt)
    (hend : endSession st o.id g = .error err) :
    reconcileFromPing hav st p = .error err := by
  have hbkid : bk.id = p.bookingId := by
    have := List.find?_some hbk
    simpa using this
  simp only [reconcileFromPing, hbk, hfo, ne_eq, not_true_eq_false, if_false,
    hla, hln, hrad, hbkid, hin, Bool.false_eq_true, hopen, hg, if_pos hexp,
    hend]

theorem openCount_append_new_le {α : Type} [LinearOrderedAddCommMonoid α]
    (st : DbState α) (nsid : ℕ) (q : BillingSession)
    (hopen : openSessions st q.bookingId = []) (hq : q.endedAt = none)
    (bid : String) :
    openCount { st with sessions := st.sessions ++ [q], nextSessionId := nsid }
      bid ≤ max (openCount st bid) 1 := by
  simp only [openCount, openSessions, List.filter_append]
  by_cases hbid : bid = q.bookingId
  · subst hbid
    rw [show st.sessions.filter
      (fun s => s.bookingId == q.bookingId && s.endedAt == none) = []
      from hopen]
    simp [List.filter, hq]
  · have hbb : (q.bookingId == bid) = false :=
      beq_eq_false_iff_ne.mpr (Ne.symm hbid)
    have hqf : List.filter (fun s => s.bookingId == bid && s.endedAt == none)
        [q] = [] := by simp [List.filter, hbb]
    rw [hqf, List.append_nil]
    exact le_max_left _ _

theorem openCount_ping_le {α : Type} [LinearOrderedAddCommMonoid α]
    (hav : JsNum α → JsNum α → JsNum α → JsNum α → JsNum α)
    (st : DbState α) (p : PingArgs α) (bid : String) :
    openCount (applyOp hav st (.ping p)) bid ≤ max (openCount st bid) 1 := by
  simp only [applyOp]
  cases hbk : findBooking st p.bookingId with
  | none =>
    simp only [reconcile_booking_none hav st p hbk]
    exact le_max_left _ _
  | some bk =>
    by_cases hfo : bk.foId = p.foId
    · cases hla : finiteField bk.siteLat with
      | none =>
        simp only [reconcile_site_invalid hav st p bk hbk hfo (Or.inl hla)]
        exact le_max_left _ _
      | some la =>
        cases hln : finiteField bk.siteLng with
        | none =>
          simp only [reconcile_site_invalid hav st p bk hbk hfo
            (Or.inr (Or.inl hln))]
          exact le_max_left _ _
        | some ln =>
          cases hrad : finiteField bk.geofenceRadiusMeters with
          | none =>
            simp only [reconcile_site_invalid hav st p bk hbk hfo
              (Or.inr (Or.inr hrad))]
            exact le_max_left _ _
          | some rad =>
            cases hin : (isInsideGeofence hav p.pingLat p.pingLng (some la)
                (some ln) (some rad) p.accuracyM).inside with
            | true =>
              cases hopen : getOpenSession st p.bookingId with
              | none =>
                simp only [reconcile_inside_no_open hav st p bk la ln rad hbk
                  hfo hla hln hrad hin hopen]
                exact openCount_append_new_le st _ (newSession st p)
                  (getOpenSession_eq_none.mp hopen) rfl bid
              | some o =>
                cases hg : o.graceExpiresAt with
                | some g =>
                  simp only [reconcile_inside_grace_clear hav st p bk la ln rad
                    o g hbk hfo hla hln hrad hin hopen hg]
                  rw [openCount_emit, openCount_update_preserving st o.id
                    clearGraceFields (fun s => ⟨rfl, rfl⟩) bid]
                  exact le_max_left _ _
                | none =>
                  simp only [reconcile_inside_open_nograce hav st p bk la ln
                    rad o hbk hfo hla hln hrad hin hopen hg]
                  exact le_max_left _ _
            | false =>
              cases hopen : getOpenSession st p.bookingId with
              | none =>
                simp only [reconcile_outside_no_open hav st p bk la ln rad hbk
                  hfo hla hln hrad hin hopen]
                exact le_max_left _ _
              | some o =>
                cases hg : o.graceExpiresAt with
                | none =>
                  simp only [reconcile_outside_grace_start hav st p bk la ln
                    rad o hbk hfo hla hln hrad hin hopen hg]
                  rw [openCount_emit, openCount_update_preserving st o.id
                    (setGraceFields (o.firstExitAt.getD p.capturedAt)
                      (o.firstExitAt.getD p.capturedAt + 900000) p.capturedAt)
                    (fun s => ⟨rfl, rfl⟩) bid]
                  exact le_max_left _ _
                | some g =>
                  by_cases hexp : g ≤ p.capturedAt
                  · cases hend : endSession st o.id g with
                    | error err =>
                      simp only [reconcile_outside_expired_error hav st p bk
                        la ln rad o g err hbk hfo hla hln hrad hin hopen hg
                        hexp hend]
                      exact le_max_left _ _
                    | ok pr =>
                      obtain ⟨s1, st1⟩ := pr
                      simp only [reconcile_outside_expired hav st p bk la ln
                        rad o s1 g st1 hbk hfo hla hln hrad hin hopen hg hexp
                        hend]
                      rw [openCount_emit]
                      exact le_trans
                        (openCount_endSession_le st o.id g bid s1 st1 hend)
                        (le_max_left _ _)
                  · simp only [reconcile_outside_in_grace hav st p bk la ln
                      rad o g hbk hfo hla hln hrad hin hopen hg
                      (not_le.mp hexp)]
                    exact le_max_left _ _
    · simp only [reconcile_fo_mismatch hav st p bk hbk hfo]
      exact le_max_left _ _

theorem openCount_applyOp_le {α : Type} [LinearOrderedAddCommMonoid α]
    (hav : JsNum α → JsNum α → JsNum α → JsNum α → JsNum α)
    (st : DbState α) (op : BillingOp α) (bid : String) :
    openCount (applyOp hav st op) bid ≤ max (openCount st bid) 1 := by
  cases op with
  | ping p => exact openCount_ping_le hav st p bid
  | start b f t => exact openCount_start_le st b f t bid
  | close sid ed =>
    simp only [applyOp]
    cases h : endSession st sid ed with
    | error e => exact le_max_left _ _
    | ok pr =>
      obtain ⟨s', st'⟩ := pr
      exact le_trans (openCount_endSession_le st sid ed bid s' st' h)
        (le_max_left _ _)
  | finalize b e r a k now =>
    simp only [applyOp]
    cases h : finalizeBookingBilling st b e r a k now with
    | error e => exact le_max_left _ _
    | ok pr =>
      obtain ⟨res, st'⟩ := pr
      exact le_trans (openCount_finalize_le st b e r a k now bid res st' h)
        (le_max_left _ _)

theorem openCount_foldl_le {α : Type} [LinearOrderedAddCommMonoid α]
    (hav : JsNum α → JsNum α → JsNum α → JsNum α → JsNum α)
    (ops : List (BillingOp α)) (st : DbState α) (bid : String)
    (h : openCount st bid ≤ 1) :
    openCount (ops.foldl (applyOp hav) st) bid ≤ 1 := by
  induction ops generalizing st with
  | nil => exact h
  | cons op rest ih =>
    simp only [List.foldl_cons]
    apply ih
    exact le_trans (openCount_applyOp_le hav st op bid) (max_le h le_rfl)

/-- C3: across any sequence of engine calls for a booking that starts
with no open session, every intermediate store has at most one open
session for that booking; and `startSession` returns an existing open
session unchanged instead of creating a second one. -/
theorem at_most_one_open_session {α : Type} [LinearOrderedAddCommMonoid α]
    (hav : JsNum α → JsNum α → JsNum α → JsNum α → JsNum α)
    (st : DbState α) (bid : String) (ops : List (BillingOp α))
    (h : openCount st bid = 0) :
    (∀ n, openCount ((ops.take n).foldl (applyOp hav) st) bid ≤ 1) ∧
    ∀ (st' : DbState α) (s : BillingSession) (foId : String) (t : ℤ),
      getOpenSession st' bid = some s → startSession st' bid foId t = (s, st') := by
  constructor
  · intro n
    exact openCount_foldl_le hav (ops.take n) st bid (by omega)
  · intro st' s foId t hs
    unfold startSession
    rw [hs]

/-- Witness for C3: the invariant along the fixture call sequence from
the empty store. -/
theorem at_most_one_open_session_witness :
    openCount wEmptyState "b1" = 0 ∧
    ∀ n, openCount ((wOps.take n).foldl (applyOp havModel) wEmptyState)
      "b1" ≤ 1 :=
  ⟨by decide,
   (at_most_one_open_session havModel wEmptyState "b1" wOps (by decide)).1⟩

/-! ### Open session after one transition. -/

theorem findBooking_same_bookings {α : Type} [LinearOrderedAddCommMonoid α]
    (st st1 : DbState α) (hb : st1.bookings = st.bookings) (i : String) :
    findBooking st1 i = findBooking st i := by
  unfold findBooking
  rw [hb]

theorem getOpenSession_after_append {α : Type} [LinearOrderedAddCommMonoid α]
    (st st1 : DbState α) (q : BillingSession) (bid : String)
    (hsess : st1.sessions = st.sessions ++ [q])
    (hempty : openSessions st bid = [])
    (hq : q.bookingId = bid) (hqo : q.endedAt = none) :
    getOpenSession st1 bid = some q := by
  unfold getOpenSession openSessions
  rw [hsess, List.filter_append,
    show st.sessions.filter (fun s => s.bookingId == bid && s.endedAt == none)
      = [] from hempty]
  have : List.filter (fun s => s.bookingId == bid && s.endedAt == none) [q]
      = [q] := by simp [List.filter, hq, hqo]
  rw [this]
  rfl

theorem getOpenSession_after_update {α : Type} [LinearOrderedAddCommMonoid α]
    (st st1 : DbState α) (o : BillingSession) (bid : String)
    (f : BillingSession → BillingSession)
    (hf : ∀ s, (f s).bookingId = s.bookingId ∧ (f s).endedAt = s.endedAt)
    (hsess : st1.sessions = updateSession st.sessions o.id f)
    (hsingle : openSessions st bid = [o]) :
    getOpenSession st1 bid = some (f o) := by
  have hcong : ∀ a ∈ st.sessions,
      ((if a.id = o.id then f a else a).bookingId == bid &&
        (if a.id = o.id then f a else a).endedAt == none) =
      (a.bookingId == bid && a.endedAt == none) := by
    intro a _
    by_cases h : a.id = o.id
    · simp [h, (hf a).1, (hf a).2]
    · simp [h]
  unfold getOpenSession openSessions
  rw [hsess, updateSession, filter_map_congr _ _ _ hcong,
    show st.sessions.filter (fun s => s.bookingId == bid && s.endedAt == none)
      = [o] from hsingle]
  simp only [List.map_cons, List.map_nil, if_pos]
  rfl

theorem getOpenSession_after_close {α : Type} [LinearOrderedAddCommMonoid α]
    (st st1 : DbState α) (o : BillingSession) (bid : String)
    (ed dur bm bc : ℤ)
    (hsess : st1.sessions = updateSession st.sessions o.id
      (closeFields ed dur bm bc))
    (hsingle : openSessions st bid = [o]) :
    getOpenSession st1 bid = none := by
  apply getOpenSession_eq_none.mpr
  unfold openSessions
  rw [hsess, updateSession]
  apply filter_map_eq_nil
  intro s hs
  by_cases hid : s.id = o.id
  · simp [hid, closeFields]
  · rw [if_neg hid]
    cases hps : (s.bookingId == bid && s.endedAt == none) with
    | false => rfl
    | true =>
      have : s ∈ openSessions st bid := List.mem_filter.mpr ⟨hs, hps⟩
      rw [hsingle] at this
      simp only [List.mem_singleton] at this
      exact absurd (congrArg BillingSession.id this) hid

/-- C4 (amended): replaying the exact same ping immediately afterwards
returns the same post-state and appends zero ledger rows, but the second
call's `action` need not equal the first's — after any mutating first
transition (`started`, `grace_started`, `grace_cleared`,
`grace_expired_ended`) the replay observes the new state and reports
`noop`.  The hypotheses are store invariants every store the engine
produced satisfies: unique session ids, at most one open session for the
booking, and grace fields only present together. -/
theorem reconcile_replay_amended {α : Type} [LinearOrderedAddCommMonoid α]
    (hav : JsNum α → JsNum α → JsNum α → JsNum α → JsNum α)
    (st : DbState α) (p : PingArgs α) (r1 : ReconcileResult) (st1 : DbState α)
    (hnd : (st.sessions.map fun s => s.id).Nodup)
    (hone : openCount st p.bookingId ≤ 1)
    (hgr : ∀ s ∈ st.sessions, s.graceExpiresAt = none → s.firstExitAt = none)
    (hcall : reconcileFromPing hav st p = .ok (r1, st1)) :
    ∃ r2, reconcileFromPing hav st1 p = .ok (r2, st1) ∧
      (r1.action ≠ .noop → r2.action = .noop) := by
  cases hbk : findBooking st p.bookingId with
  | none =>
    rw [reconcile_booking_none hav st p hbk] at hcall
    exact Except.noConfusion hcall
  | some bk =>
    by_cases hfo : bk.foId = p.foId
    case neg =>
      have L := reconcile_fo_mismatch hav st p bk hbk hfo
      have h2 := L.symm.trans hcall
      simp only [Except.ok.injEq, Prod.mk.injEq] at h2
      obtain ⟨hr, hs⟩ := h2
      subst hr hs
      exact ⟨noopOutsideResult, L, fun hne => absurd rfl hne⟩
    case pos =>
      cases hla : finiteField bk.siteLat with
      | none =>
        have L := reconcile_site_invalid hav st p bk hbk hfo (Or.inl hla)
        have h2 := L.symm.trans hcall
        simp only [Except.ok.injEq, Prod.mk.injEq] at h2
        obtain ⟨hr, hs⟩ := h2
        subst hr hs
        exact ⟨noopOutsideResult, L, fun hne => absurd rfl hne⟩
      | some la =>
        cases hln : finiteField bk.siteLng with
        | none =>
          have L := reconcile_site_invalid hav st p bk hbk hfo
            (Or.inr (Or.inl hln))
          have h2 := L.symm.trans hcall
          simp only [Except.ok.injEq, Prod.mk.injEq] at h2
          obtain ⟨hr, hs⟩ := h2
          subst hr hs
          exact ⟨noopOutsideResult, L, fun hne => absurd rfl hne⟩
        | some ln =>
          cases hrad : finiteField bk.geofenceRadiusMeters with
          | none =>
            have L := reconcile_site_invalid hav st p bk hbk hfo
              (Or.inr (Or.inr hrad))
            have h2 := L.symm.trans hcall
            simp only [Except.ok.injEq, Prod.mk.injEq] at h2
            obtain ⟨hr, hs⟩ := h2
            subst hr hs
            exact ⟨noopOutsideResult, L, fun hne => absurd rfl hne⟩
          | some rad =>
            cases hin : (isInsideGeofence hav p.pingLat p.pingLng (some la)
                (some ln) (some rad) p.accuracyM).inside with
            | true =>
              cases hopen : getOpenSession st p.bookingId with
              | none =>
                have L := reconcile_inside_no_open hav st p bk la ln rad hbk
                  hfo hla hln hrad hin hopen
                have h2 := L.symm.trans hcall
                simp only [Except.ok.injEq, Prod.mk.injEq] at h2
                obtain ⟨hr, hs⟩ := h2
                subst hr hs
                have hopen1 := getOpenSession_after_append st
                  { st with sessions := st.sessions ++ [newSession st p],
                            nextSessionId := st.nextSessionId + 1 }
                  (newSession st p) p.bookingId rfl
                  (getOpenSession_eq_none.mp hopen) rfl rfl
                exact ⟨insideNoopResult,
                  reconcile_inside_open_nograce hav _ p bk la ln rad
                    (newSession st p) hbk hfo hla hln hrad hin hopen1 rfl,
                  fun _ => rfl⟩
              | some o =>
                cases hg : o.graceExpiresAt with
                | some g =>
                  have L := reconcile_inside_grace_clear hav st p bk la ln rad
                    o g hbk hfo hla hln hrad hin hopen hg
                  have h2 := L.symm.trans hcall
                  simp only [Except.ok.injEq, Prod.mk.injEq] at h2
                  obtain ⟨hr, hs⟩ := h2
                  subst hr hs
                  have hsingle : openSessions st p.bookingId = [o] :=
                    eq_singleton_of_mem_of_length_le_one
                      (pickLatest_mem hopen) hone
                  have hopen1 := getOpenSession_after_update st
                    (emitNoteEvent { st with sessions := updateSession st.sessions o.id clearGraceFields } p.bookingId (graceClearedKey o.id) "billing_grace_cleared")
                    o p.bookingId clearGraceFields (fun s => ⟨rfl, rfl⟩) rfl
                    hsingle
                  exact ⟨insideNoopResult,
                    reconcile_inside_open_nograce hav _ p bk la ln rad
                      (clearGraceFields o) hbk hfo hla hln hrad hin hopen1 rfl,
                    fun _ => rfl⟩
                | none =>
                  have L := reconcile_inside_open_nograce hav st p bk la ln
                    rad o hbk hfo hla hln hrad hin hopen hg
                  have h2 := L.symm.trans hcall
                  simp only [Except.ok.injEq, Prod.mk.injEq] at h2
                  obtain ⟨hr, hs⟩ := h2
                  subst hr hs
                  exact ⟨insideNoopResult, L, fun hne => absurd rfl hne⟩
            | false =>
              cases hopen : getOpenSession st p.bookingId with
              | none =>
                have L := reconcile_outside_no_open hav st p bk la ln rad hbk
                  hfo hla hln hrad hin hopen
                have h2 := L.symm.trans hcall
                simp only [Except.ok.injEq, Prod.mk.injEq] at h2
                obtain ⟨hr, hs⟩ := h2
                subst hr hs
                exact ⟨noopOutsideResult, L, fun hne => absurd rfl hne⟩
              | some o =>
                cases hg : o.graceExpiresAt with
                | none =>
                  have hfe : o.firstExitAt = none :=
                    hgr o (getOpenSession_mem hopen).1 hg
                  have L := reconcile_outside_grace_start hav st p bk la ln
                    rad o hbk hfo hla hln hrad hin hopen hg
                  rw [hfe] at L
                  simp only [Option.getD_none] at L
                  have h2 := L.symm.trans hcall
                  simp only [Except.ok.injEq, Prod.mk.injEq] at h2
                  obtain ⟨hr, hs⟩ := h2
                  subst hr hs
                  have hsingle : openSessions st p.bookingId = [o] :=
                    eq_singleton_of_mem_of_length_le_one
                      (pickLatest_mem hopen) hone
                  have hopen1 := getOpenSession_after_update st
                    (emitNoteEvent { st with sessions := updateSession st.sessions o.id (setGraceFields p.capturedAt (p.capturedAt + 900000) p.capturedAt) } p.bookingId (graceStartedKey o.id p.capturedAt) "billing_grace_started")
                    o p.bookingId
                    (setGraceFields p.capturedAt (p.capturedAt + 900000)
                      p.capturedAt)
                    (fun s => ⟨rfl, rfl⟩) rfl hsingle
                  refine ⟨_, reconcile_outside_in_grace hav _ p bk la ln rad
                    (setGraceFields p.capturedAt (p.capturedAt + 900000)
                      p.capturedAt o)
                    (p.capturedAt + 900000) hbk hfo hla hln hrad hin hopen1
                    rfl (by omega), fun _ => rfl⟩
                | some g =>
                  by_cases hexp : g ≤ p.capturedAt
                  · have ho := getOpenSession_mem hopen
                    have hfind : findSession st o.id = some o :=
                      find?_id_of_nodup ho.1 hnd
                    have hoe : o.endedAt = none := ho.2.2
                    set dur : ℤ := max 0 ((g - o.startedAt).fdiv 1000) with hdur
                    set b := computeBillable dur getPricingPolicy.hourlyRateCents
                      getPricingPolicy.billingIncrementMinutes with hb
                    have hend : endSession st o.id g =
                        .ok (closeFields g dur b.1 b.2 o, { st with sessions := updateSession st.sessions o.id (closeFields g dur b.1 b.2) }) := by
                      simp only [endSession, hfind, hoe, Option.isSome_none,
                        Bool.false_eq_true, if_false, hdur, hb]
                    have L := reconcile_outside_expired hav st p bk la ln rad
                      o _ g _ hbk hfo hla hln hrad hin hopen hg hexp hend
                    have h2 := L.symm.trans hcall
                    simp only [Except.ok.injEq, Prod.mk.injEq] at h2
                    obtain ⟨hr, hs⟩ := h2
                    subst hr hs
                    have hsingle : openSessions st p.bookingId = [o] :=
                      eq_singleton_of_mem_of_length_le_one
                        (pickLatest_mem hopen) hone
                    have hopen1 := getOpenSession_after_close st
                      (emitNoteEvent { st with sessions := updateSession st.sessions o.id (closeFields g dur b.1 b.2) } p.bookingId (graceExpiredKey o.id g) "billing_grace_expired_ended")
                      o p.bookingId g dur b.1 b.2 rfl hsingle
                    exact ⟨noopOutsideResult,
                      reconcile_outside_no_open hav _ p bk la ln rad hbk hfo
                        hla hln hrad hin hopen1,
                      fun _ => rfl⟩
                  · have L := reconcile_outside_in_grace hav st p bk la ln rad
                      o g hbk hfo hla hln hrad hin hopen hg (not_le.mp hexp)
                    have h2 := L.symm.trans hcall
                    simp only [Except.ok.injEq, Prod.mk.injEq] at h2
                    obtain ⟨hr, hs⟩ := h2
                    subst hr hs
                    exact ⟨_, L, fun hne => absurd rfl hne⟩

/-- Counterexample to C4 as stated: replaying the same inside ping right
after it started a session yields action `noop` on the second call, not
the first call's `started` — the two calls do not return the same
action (post-state and ledger are unchanged, as the amended claim
records). -/
theorem reconcile_replay_counterexample :
    (reconcileFromPing havModel wEmptyState (wInsidePing 0)).map
      (fun x => x.1.action) = .ok .started ∧
    (reconcileFromPing havModel wEmptyState (wInsidePing 0)).map
      (fun x => x.2) = .ok wStartedState ∧
    (reconcileFromPing havModel wStartedState (wInsidePing 0)).map
      (fun x => x.1.action) = .ok .noop ∧
    ReconcileAction.started ≠ ReconcileAction.noop := by decide

/-- Witness for the amended C4 at the started-session replay. -/
theorem reconcile_replay_amended_witness :
    (wEmptyState.sessions.map fun s => s.id).Nodup ∧
    openCount wEmptyState "b1" ≤ 1 ∧
    (∀ s ∈ wEmptyState.sessions, s.graceExpiresAt = none →
      s.firstExitAt = none) ∧
    reconcileFromPing havModel wEmptyState (wInsidePing 0) =
      .ok ({ inside := true, action := .started, grace := noGrace,
             actionRequired := none }, wStartedState) ∧
    ∃ r2, reconcileFromPing havModel wStartedState (wInsidePing 0) =
        .ok (r2, wStartedState) ∧
      ((ReconcileResult.mk true .started noGrace none).action ≠ .noop →
        r2.action = .noop) :=
  ⟨by decide, by decide, by decide, by decide,
   reconcile_replay_amended havModel wEmptyState (wInsidePing 0)
     ⟨true, .started, noGrace, none⟩ wStartedState (by decide) (by decide)
     (by decide) (by decide)⟩

theorem endSession_ledger {α : Type} [LinearOrderedAddCommMonoid α]
    (st : DbState α) (sid : ℕ) (ed : ℤ) (s' : BillingSession)
    (st' : DbState α) (h : endSession st sid ed = .ok (s', st')) :
    st'.ledger = st.ledger := by
  cases hfs : findSession st sid with
  | none =>
    simp only [endSession, hfs] at h
    exact Except.noConfusion h
  | some s2 =>
    simp only [endSession, hfs] at h
    by_cases he : s2.endedAt.isSome = true
    · rw [if_pos he] at h
      simp only [Except.ok.injEq, Prod.mk.injEq] at h
      rw [← h.2]
    · rw [if_neg he] at h
      simp only [Except.ok.injEq, Prod.mk.injEq] at h
      rw [← h.2]

/-- C6 (amended): every mutating transition calls the idempotent ledger
write exactly once, under the deterministic key for its kind —
`billing:grace_started:SESSION:FIRSTEXIT`, `billing:grace_cleared:SESSION`
and `billing:grace_expired_ended:SESSION:EXPIRY` — so a row is appended
iff that key is not already present; `noop` leaves the store untouched
and `started` writes no note.  (Because the grace-cleared key carries no
timestamp, a second grace-clear in the same session reuses the first
key and appends nothing — the counterexample.) -/
theorem reconcile_ledger_amended {α : Type} [LinearOrderedAddCommMonoid α]
    (hav : JsNum α → JsNum α → JsNum α → JsNum α → JsNum α)
    (st : DbState α) (p : PingArgs α) (r1 : ReconcileResult) (st1 : DbState α)
    (hcall : reconcileFromPing hav st p = .ok (r1, st1)) :
    (r1.action = .noop → st1 = st) ∧
    (r1.action = .started → st1.ledger = st.ledger) ∧
    (r1.action = .grace_cleared → ∃ o,
      getOpenSession st p.bookingId = some o ∧
      st1.ledger = appendNote st.ledger
        ⟨p.bookingId, graceClearedKey o.id, "billing_grace_cleared"⟩) ∧
    (r1.action = .grace_started → ∃ o,
      getOpenSession st p.bookingId = some o ∧
      st1.ledger = appendNote st.ledger
        ⟨p.bookingId, graceStartedKey o.id (o.firstExitAt.getD p.capturedAt),
         "billing_grace_started"⟩) ∧
    (r1.action = .grace_expired_ended → ∃ o g,
      getOpenSession st p.bookingId = some o ∧ o.graceExpiresAt = some g ∧
      st1.ledger = appendNote st.ledger
        ⟨p.bookingId, graceExpiredKey o.id g, "billing_grace_expired_ended"⟩) := by
  cases hbk : findBooking st p.bookingId with
  | none =>
    rw [reconcile_booking_none hav st p hbk] at hcall
    exact Except.noConfusion hcall
  | some bk =>
    by_cases hfo : bk.foId = p.foId
    case neg =>
      have h2 := (reconcile_fo_mismatch hav st p bk hbk hfo).symm.trans hcall
      simp only [Except.ok.injEq, Prod.mk.injEq] at h2
      obtain ⟨hr, hs⟩ := h2
      subst hr hs
      exact ⟨fun _ => rfl, fun h => ReconcileAction.noConfusion h,
        fun h => ReconcileAction.noConfusion h,
        fun h => ReconcileAction.noConfusion h,
        fun h => ReconcileAction.noConfusion h⟩
    case pos =>
      cases hla : finiteField bk.siteLat with
      | none =>
        have h2 := (reconcile_site_invalid hav st p bk hbk hfo
          (Or.inl hla)).symm.trans hcall
        simp only [Except.ok.injEq, Prod.mk.injEq] at h2
        obtain ⟨hr, hs⟩ := h2
        subst hr hs
        exact ⟨fun _ => rfl, fun h => ReconcileAction.noConfusion h,
          fun h => ReconcileAction.noConfusion h,
          fun h => ReconcileAction.noConfusion h,
          fun h => ReconcileAction.noConfusion h⟩
      | some la =>
        cases hln : finiteField bk.siteLng with
        | none =>
          have h2 := (reconcile_site_invalid hav st p bk hbk hfo
            (Or.inr (Or.inl hln))).symm.trans hcall
          simp only [Except.ok.injEq, Prod.mk.injEq] at h2
          obtain ⟨hr, hs⟩ := h2
          subst hr hs
          exact ⟨fun _ => rfl, fun h => ReconcileAction.noConfusion h,
            fun h => ReconcileAction.noConfusion h,
            fun h => ReconcileAction.noConfusion h,
            fun h => ReconcileAction.noConfusion h⟩
        | some ln =>
          cases hrad : finiteField bk.geofenceRadiusMeters with
          | none =>
            have h2 := (reconcile_site_invalid hav st p bk hbk hfo
              (Or.inr (Or.inr hrad))).symm.trans hcall
            simp only [Except.ok.injEq, Prod.mk.injEq] at h2
            obtain ⟨hr, hs⟩ := h2
            subst hr hs
            exact ⟨fun _ => rfl, fun h => ReconcileAction.noConfusion h,
              fun h => ReconcileAction.noConfusion h,
              fun h => ReconcileAction.noConfusion h,
              fun h => ReconcileAction.noConfusion h⟩
          | some rad =>
            cases hin : (isInsideGeofence hav p.pingLat p.pingLng (some la)
                (some ln) (some rad) p.accuracyM).inside with
            | true =>
              cases hopen : getOpenSession st p.bookingId with
              | none =>
                have h2 := (reconcile_inside_no_open hav st p bk la ln rad hbk
                  hfo hla hln hrad hin hopen).symm.trans hcall
                simp only [Except.ok.injEq, Prod.mk.injEq] at h2
                obtain ⟨hr, hs⟩ := h2
                subst hr hs
                exact ⟨fun h => ReconcileAction.noConfusion h, fun _ => rfl,
                  fun h => ReconcileAction.noConfusion h,
                  fun h => ReconcileAction.noConfusion h,
                  fun h => ReconcileAction.noConfusion h⟩
              | some o =>
                cases hg : o.graceExpiresAt with
                | some g =>
                  have h2 := (reconcile_inside_grace_clear hav st p bk la ln
                    rad o g hbk hfo hla hln hrad hin hopen hg).symm.trans hcall
                  simp only [Except.ok.injEq, Prod.mk.injEq] at h2
                  obtain ⟨hr, hs⟩ := h2
                  subst hr hs
                  exact ⟨fun h => ReconcileAction.noConfusion h,
                    fun h => ReconcileAction.noConfusion h,
                    fun _ => ⟨o, rfl, rfl⟩,
                    fun h => ReconcileAction.noConfusion h,
                    fun h => ReconcileAction.noConfusion h⟩
                | none =>
                  have h2 := (reconcile_inside_open_nograce hav st p bk la ln
                    rad o hbk hfo hla hln hrad hin hopen hg).symm.trans hcall
                  simp only [Except.ok.injEq, Prod.mk.injEq] at h2
                  obtain ⟨hr, hs⟩ := h2
                  subst hr hs
                  exact ⟨fun _ => rfl, fun h => ReconcileAction.noConfusion h,
                    fun h => ReconcileAction.noConfusion h,
                    fun h => ReconcileAction.noConfusion h,
                    fun h => ReconcileAction.noConfusion h⟩
            | false =>
              cases hopen : getOpenSession st p.bookingId with
              | none =>
                have h2 := (reconcile_outside_no_open hav st p bk la ln rad
                  hbk hfo hla hln hrad hin hopen).symm.trans hcall
                simp only [Except.ok.injEq, Prod.mk.injEq] at h2
                obtain ⟨hr, hs⟩ := h2
                subst hr hs
                exact ⟨fun _ => rfl, fun h => ReconcileAction.noConfusion h,
                  fun h => ReconcileAction.noConfusion h,
                  fun h => ReconcileAction.noConfusion h,
                  fun h => ReconcileAction.noConfusion h⟩
              | some o =>
                cases hg : o.graceExpiresAt with
                | none =>
                  have h2 := (reconcile_outside_grace_start hav st p bk la ln
                    rad o hbk hfo hla hln hrad hin hopen hg).symm.trans hcall
                  simp only [Except.ok.injEq, Prod.mk.injEq] at h2
                  obtain ⟨hr, hs⟩ := h2
                  subst hr hs
                  exact ⟨fun h => ReconcileAction.noConfusion h,
                    fun h => ReconcileAction.noConfusion h,
                    fun h => ReconcileAction.noConfusion h,
                    fun _ => ⟨o, rfl, rfl⟩,
                    fun h => ReconcileAction.noConfusion h⟩
                | some g =>
                  by_cases hexp : g ≤ p.capturedAt
                  · cases hend : endSession st o.id g with
                    | error err =>
                      rw [reconcile_outside_expired_error hav st p bk la ln
                        rad o g err hbk hfo hla hln hrad hin hopen hg hexp
                        hend] at hcall
                      exact Except.noConfusion hcall
                    | ok pr =>
                      obtain ⟨s1, st1x⟩ := pr
                      have h2 := (reconcile_outside_expired hav st p bk la ln
                        rad o s1 g st1x hbk hfo hla hln hrad hin hopen hg hexp
                        hend).symm.trans hcall
                      simp only [Except.ok.injEq, Prod.mk.injEq] at h2
                      obtain ⟨hr, hs⟩ := h2
                      subst hr hs
                      have hled : st1x.ledger = st.ledger :=
                        endSession_ledger st o.id g s1 st1x hend
                      refine ⟨fun h => ReconcileAction.noConfusion h,
                        fun h => ReconcileAction.noConfusion h,
                        fun h => ReconcileAction.noConfusion h,
                        fun h => ReconcileAction.noConfusion h,
                        fun _ => ⟨o, g, rfl, hg, ?_⟩⟩
                      show appendNote st1x.ledger _ = _
                      rw [hled]
                  · have h2 := (reconcile_outside_in_grace hav st p bk la ln
                      rad o g hbk hfo hla hln hrad hin hopen hg
                      (not_le.mp hexp)).symm.trans hcall
                    simp only [Except.ok.injEq, Prod.mk.injEq] at h2
                    obtain ⟨hr, hs⟩ := h2
                    subst hr hs
                    exact ⟨fun _ => rfl, fun h => ReconcileAction.noConfusion h,
                      fun h => ReconcileAction.noConfusion h,
                      fun h => ReconcileAction.noConfusion h,
                      fun h => ReconcileAction.noConfusion h⟩

/-- Counterexample to C6 as stated: after a start, exit, re-entry and a
second exit (three ledger rows), the second grace-clear transition — a
distinct mutating transition — appends zero rows, because the
grace-cleared key has no timestamp and is already present. -/
theorem reconcile_ledger_counterexample :
    wC6State.ledger.length = 3 ∧
    (reconcileFromPing havModel wC6State (wInsidePing 240000)).map
      (fun x => (x.1.action, x.2.ledger.length)) =
      .ok (.grace_cleared, 3) := by decide

/-- Witness for the amended C6 at a concrete grace-clear call. -/
theorem reconcile_ledger_amended_witness :
    reconcileFromPing havModel wGraceState (wInsidePing 120000) =
      .ok ({ inside := true, action := .grace_cleared, grace := noGrace,
             actionRequired := none }, wClearedState) ∧
    ((ReconcileResult.mk true .grace_cleared noGrace none).action =
        .grace_cleared → ∃ o,
      getOpenSession wGraceState "b1" = some o ∧
      wClearedState.ledger = appendNote wGraceState.ledger
        ⟨"b1", graceClearedKey o.id, "billing_grace_cleared"⟩) :=
  ⟨by decide,
   (reconcile_ledger_amended havModel wGraceState (wInsidePing 120000)
     ⟨true, .grace_cleared, noGrace, none⟩ wClearedState (by decide)).2.2.1⟩

theorem jsLe_none_left {α : Type} [LinearOrderedAddCommMonoid α]
    (y : JsNum α) : jsLe (none : JsNum α) y = false := by
  cases y <;> rfl

theorem havModel_nan_left (lat1 lng1 lat2 lng2 : JsNum ℤ)
    (h : lat1 = none ∨ lng1 = none) : havModel lat1 lng1 lat2 lng2 = none := by
  rcases h with h | h
  · subst h
    cases lng1 <;> cases lat2 <;> cases lng2 <;> rfl
  · subst h
    cases lat1 <;> cases lat2 <;> cases lng2 <;> rfl

/-- C9 (amended): a ping failing a guard — `foId` not matching the
booking's assigned worker, or a missing/non-finite site configuration —
does not throw, performs no mutation and returns action `noop`; however
the reconciliation result carries no `distance`/`threshold` diagnostic
fields, and a malformed (NaN-coordinate) ping is not guarded at all: its
NaN distance makes the geofence comparison fail closed, so the ping is
classified outside and can trigger grace transitions. -/
theorem reconcile_guards_amended {α : Type} [LinearOrderedAddCommMonoid α]
    (hav : JsNum α → JsNum α → JsNum α → JsNum α → JsNum α)
    (st : DbState α) (p : PingArgs α) :
    (∀ bk, findBooking st p.bookingId = some bk → bk.foId ≠ p.foId →
      reconcileFromPing hav st p = .ok (noopOutsideResult, st)) ∧
    (∀ bk, findBooking st p.bookingId = some bk → bk.foId = p.foId →
      (finiteField bk.siteLat = none ∨ finiteField bk.siteLng = none ∨
        finiteField bk.geofenceRadiusMeters = none) →
      reconcileFromPing hav st p = .ok (noopOutsideResult, st)) ∧
    ((∀ lat1 lng1 lat2 lng2, (lat1 = none ∨ lng1 = none) →
        hav lat1 lng1 lat2 lng2 = none) →
      (p.pingLat = none ∨ p.pingLng = none) →
      ∀ siteLat siteLng radiusMeters (acc : Option (JsNum α)),
        (isInsideGeofence hav p.pingLat p.pingLng siteLat siteLng
          radiusMeters acc).inside = false) := by
  refine ⟨fun bk hbk hfo => reconcile_fo_mismatch hav st p bk hbk hfo,
    fun bk hbk hfo hsite => reconcile_site_invalid hav st p bk hbk hfo hsite,
    fun hnan hml siteLat siteLng radiusMeters acc => ?_⟩
  have hd : hav p.pingLat p.pingLng siteLat siteLng = none :=
    hnan _ _ _ _ hml
  show jsLe (hav p.pingLat p.pingLng siteLat siteLng) _ = false
  rw [hd, jsLe_none_left]

/-- Counterexample to C9 as stated: a NaN-latitude ping against an open
ungraced session is not a no-op — it is classified outside and starts
grace, mutating the session — so a malformed ping neither returns `noop`
nor leaves the store unchanged. -/
theorem reconcile_malformed_counterexample :
    (reconcileFromPing havModel wStartedState wNaNPing).map
      (fun x => x.1.action) = .ok .grace_started ∧
    (reconcileFromPing havModel wStartedState wNaNPing).map
      (fun x => x.2.sessions) ≠ .ok wStartedState.sessions ∧
    ReconcileAction.grace_started ≠ ReconcileAction.noop := by decide

/-- Witness for the amended C9: the worker-mismatch guard, the
missing-site guard, and the fail-closed NaN classification at concrete
inputs. -/
theorem reconcile_guards_amended_witness :
    reconcileFromPing havModel wGraceState wWrongFoPing =
      .ok (noopOutsideResult, wGraceState) ∧
    reconcileFromPing havModel wNoSiteState wNoSitePing =
      .ok (noopOutsideResult, wNoSiteState) ∧
    (isInsideGeofence havModel (none : JsNum ℤ) (some 20) (some 10) (some 20)
      (some 100) none).inside = false :=
  ⟨(reconcile_guards_amended havModel wGraceState wWrongFoPing).1 wBooking
     (by decide) (by decide),
   (reconcile_guards_amended havModel wNoSiteState wNoSitePing).2.1
     wNoSiteBooking (by decide) (by decide) (by decide),
   (reconcile_guards_amended havModel wStartedState wNaNPing).2.2
     havModel_nan_left (Or.inl rfl) (some 10) (some 20) (some 100) none⟩

theorem insertByStart_perm (s : BillingSession) (l : List BillingSession) :
    (insertByStart s l).Perm (s :: l) := by
  induction l with
  | nil => exact List.Perm.refl _
  | cons t ts ih =>
    by_cases h : s.startedAt ≤ t.startedAt
    · rw [insertByStart, if_pos h]
    · rw [insertByStart, if_neg h]
      exact (List.Perm.cons t ih).trans (List.Perm.swap s t ts)

theorem sortByStart_perm (l : List BillingSession) :
    (sortByStart l).Perm l := by
  induction l with
  | nil => exact List.Perm.refl _
  | cons s ss ih =>
    exact (insertByStart_perm s (sortByStart ss)).trans (List.Perm.cons s ih)

theorem totals_foldl (l : List SessionView) (init : Totals) :
    (l.foldl (fun acc s =>
      { totalBillableMin := acc.totalBillableMin + s.billableMin.getD 0,
        totalBillableCents := acc.totalBillableCents + s.billableCents.getD 0 })
      init) =
    { totalBillableMin :=
        init.totalBillableMin + (l.map fun s => s.billableMin.getD 0).sum,
      totalBillableCents :=
        init.totalBillableCents + (l.map fun s => s.billableCents.getD 0).sum } := by
  induction l generalizing init with
  | nil => simp
  | cons a rest ih =>
    simp only [List.foldl_cons, List.map_cons, List.sum_cons, ih]
    congr 1 <;> ring

theorem summarizeBooking_totals_eq {α : Type} [LinearOrderedAddCommMonoid α]
    {st : DbState α} {bid : String} {summary : BookingSummary}
    (h : summarizeBooking st bid = .ok summary) :
    summary.totals.totalBillableMin =
      ((st.sessions.filter fun s => s.bookingId == bid).map
        fun s => s.billableMin.getD 0).sum ∧
    summary.totals.totalBillableCents =
      ((st.sessions.filter fun s => s.bookingId == bid).map
        fun s => s.billableCents.getD 0).sum := by
  cases hbk : findBooking st bid with
  | none =>
    simp only [summarizeBooking, hbk] at h
    exact Except.noConfusion h
  | some bk =>
    have hbkid : bk.id = bid := by
      have := List.find?_some hbk
      simpa using this
    simp only [summarizeBooking, hbk, hbkid, Except.ok.injEq] at h
    subst h
    rw [totals_foldl]
    constructor
    · show (0 : ℤ) + _ = _
      rw [zero_add, List.map_map]
      exact ((sortByStart_perm _).map _).sum_eq
    · show (0 : ℤ) + _ = _
      rw [zero_add, List.map_map]
      exact ((sortByStart_perm _).map _).sum_eq

/-- C7: the totals of `summarizeBooking` are the sums of `billableMin`
and `billableCents` over all of the booking's sessions (NULL counted as
0), and `finalizeBookingBilling` returns `finalBillableMin` /
`finalBillableCents` equal to those totals of its post-close store. -/
theorem billing_totals_sum_all_sessions {α : Type}
    [LinearOrderedAddCommMonoid α] (st : DbState α) (bid : String) :
    (∀ summary, summarizeBooking st bid = .ok summary →
      summary.totals.totalBillableMin =
        ((st.sessions.filter fun s => s.bookingId == bid).map
          fun s => s.billableMin.getD 0).sum ∧
      summary.totals.totalBillableCents =
        ((st.sessions.filter fun s => s.bookingId == bid).map
          fun s => s.billableCents.getD 0).sum) ∧
    (∀ endedAtArg reason actorId key now res st2,
      finalizeBookingBilling st bid endedAtArg reason actorId key now =
        .ok (res, st2) →
      res.finalBillableMin = res.totals.totalBillableMin ∧
      res.finalBillableCents = res.totals.totalBillableCents ∧
      res.totals.totalBillableMin =
        ((st2.sessions.filter fun s => s.bookingId == bid).map
          fun s => s.billableMin.getD 0).sum ∧
      res.totals.totalBillableCents =
        ((st2.sessions.filter fun s => s.bookingId == bid).map
          fun s => s.billableCents.getD 0).sum) := by
  refine ⟨fun summary h => summarizeBooking_totals_eq h, ?_⟩
  intro endedAtArg reason actorId key now res st2 h
  cases hbk : findBooking st bid with
  | none =>
    simp only [finalizeBookingBilling, hbk] at h
    exact Except.noConfusion h
  | some bk =>
    have hbkid : bk.id = bid := by
      have := List.find?_some hbk
      simpa using this
    simp only [finalizeBookingBilling, hbk] at h
    cases hop : getOpenSession st bk.id with
    | none =>
      simp only [hop] at h
      revert h
      split
      · intro h
        exact Except.noConfusion h
      · rename_i summary hsum
        intro h
        simp only [Except.ok.injEq, Prod.mk.injEq] at h
        obtain ⟨hres, hst2⟩ := h
        subst hst2
        rw [hbkid] at hsum
        have hts := summarizeBooking_totals_eq hsum
        rw [← hres]
        exact ⟨rfl, rfl, hts.1, hts.2⟩
    | some o =>
      simp only [hop] at h
      cases hend : endSession st o.id (endedAtArg.getD now) with
      | error err =>
        simp only [hend] at h
        exact Except.noConfusion h
      | ok pr =>
        obtain ⟨s1, st1⟩ := pr
        simp only [hend] at h
        revert h
        split
        · intro h
          exact Except.noConfusion h
        · rename_i summary hsum
          intro h
          simp only [Except.ok.injEq, Prod.mk.injEq] at h
          obtain ⟨hres, hst2⟩ := h
          subst hst2
          rw [hbkid] at hsum
          have hts := summarizeBooking_totals_eq hsum
          rw [← hres]
          exact ⟨rfl, rfl, hts.1, hts.2⟩

/-- Witness for C7: the two-closed-session fixture, summarised and
finalised. -/
theorem billing_totals_sum_all_sessions_witness :
    summarizeBooking wSummaryState "b1" = .ok wSummary ∧
    (wSummary.totals.totalBillableMin =
      ((wSummaryState.sessions.filter fun s => s.bookingId == "b1").map
        fun s => s.billableMin.getD 0).sum ∧
     wSummary.totals.totalBillableCents =
      ((wSummaryState.sessions.filter fun s => s.bookingId == "b1").map
        fun s => s.billableCents.getD 0).sum) ∧
    finalizeBookingBilling wSummaryState "b1" none none none none 999999 =
      .ok (wFinalizeRes, wFinalizedState) ∧
    (wFinalizeRes.finalBillableMin = wFinalizeRes.totals.totalBillableMin ∧
     wFinalizeRes.finalBillableCents = wFinalizeRes.totals.totalBillableCents ∧
     wFinalizeRes.totals.totalBillableMin =
      ((wFinalizedState.sessions.filter fun s => s.bookingId == "b1").map
        fun s => s.billableMin.getD 0).sum ∧
     wFinalizeRes.totals.totalBillableCents =
      ((wFinalizedState.sessions.filter fun s => s.bookingId == "b1").map
        fun s => s.billableCents.getD 0).sum) :=
  ⟨by decide,
   (billing_totals_sum_all_sessions wSummaryState "b1").1 wSummary (by decide),
   by decide,
   (billing_totals_sum_all_sessions wSummaryState "b1").2 none none none none
     999999 wFinalizeRes wFinalizedState (by decide)⟩

/-- C8: an admin refinalize is refused once the gateway payment has
succeeded — the request is rejected carrying the existing payment status
and the store (in particular the stored finalization snapshot) is
untouched; when the payment has not succeeded, the finalization row is
overwritten with the recomputed `finalBillableCents` under the new
idempotency key. -/
theorem refinalize_gateway_guard {α : Type} [LinearOrderedAddCommMonoid α]
    (st : DbState α) (userId : Option String)
    (bookingId idem reason0 : String) (now : ℤ)
    (hidem : ¬ idem = "") (hreason : ¬ jsTrim reason0 = "")
    (hbk : (findBooking st bookingId).isSome = true) :
    (∀ pmt, findPayment st bookingId = some pmt →
      pmt.status = "succeeded" →
      refinalize st "admin" userId bookingId idem reason0 now =
        .ok (.rejected ⟨"INVALID_REQUEST",
          "Cannot re-finalize after payment has succeeded. Use adjustment/refund workflow.",
          some "succeeded"⟩, st)) ∧
    (¬ (∃ pmt, findPayment st bookingId = some pmt ∧
        pmt.status = "succeeded") →
      ∀ res stf existing,
        finalizeBookingBilling
          (emitNoteEvent st bookingId
            ("ADMIN_REFINALIZE_INTENT:" ++ bookingId ++ ":" ++ idem)
            ("ADMIN_REFINALIZE_INTENT:" ++ jsTrim reason0))
          bookingId none none none
          (some ("ADMIN_REFINALIZE:" ++ bookingId ++ ":" ++ idem)) now =
          .ok (res, stf) →
        findFinalization stf bookingId = some existing →
        ∃ st', refinalize st "admin" userId bookingId idem reason0 now =
            .ok (.finalized { existing with finalBillableCents := res.finalBillableCents, idempotencyKey := "BILLING_FINALIZED:" ++ bookingId ++ ":" ++ ("ADMIN_REFINALIZE:" ++ bookingId ++ ":" ++ idem) }, st') ∧
          findFinalization st' bookingId = some { existing with finalBillableCents := res.finalBillableCents, idempotencyKey := "BILLING_FINALIZED:" ++ bookingId ++ ":" ++ ("ADMIN_REFINALIZE:" ++ bookingId ++ ":" ++ idem) }) := by
  obtain ⟨bk, hbk2⟩ := Option.isSome_iff_exists.mp hbk
  constructor
  · intro pmt hp hsp
    have hcond : ((some pmt).elim false
        (fun p => p.status == "succeeded")) = true := by simp [hsp]
    simp only [refinalize, ne_eq, not_true_eq_false, if_false, if_neg hidem,
      if_neg hreason, hbk2, hp, hcond, if_true]
    simp [hsp]
  · intro hns res stf existing hfin hex
    have hcond : ((findPayment st bookingId).elim false
        (fun p => p.status == "succeeded")) = false := by
      cases hp : findPayment st bookingId with
      | none => rfl
      | some pmt =>
        have : ¬ pmt.status = "succeeded" := fun hs => hns ⟨pmt, hp, hs⟩
        simp [this]
    have hexbid : existing.bookingId = bookingId := by
      have := List.find?_some hex
      simpa using this
    set upd : BillingFinalization := { existing with finalBillableCents := res.finalBillableCents, idempotencyKey := "BILLING_FINALIZED:" ++ bookingId ++ ":" ++ ("ADMIN_REFINALIZE:" ++ bookingId ++ ":" ++ idem) } with hupd
    refine ⟨emitNoteEvent { stf with finalizations := stf.finalizations.map (fun f => if f.bookingId = bookingId then upd else f) } bookingId ("ADMIN_REFINALIZE_EXECUTED:" ++ bookingId ++ ":" ++ idem) ("ADMIN_REFINALIZE_EXECUTED:" ++ jsTrim reason0), ?_, ?_⟩
    · simp only [refinalize, ne_eq, not_true_eq_false, if_false,
        if_neg hidem, if_neg hreason, hbk2, hcond, Bool.false_eq_true,
        hfin, hex, hupd]
    · have hfind2 : stf.finalizations.find?
          (fun f => f.bookingId == bookingId) = some existing := hex
      have hg1 : ∀ x : BillingFinalization, (x.bookingId == bookingId) = true →
          ((if x.bookingId = bookingId then upd else x).bookingId ==
            bookingId) = true := by
        intro x hx
        simp only [beq_iff_eq] at hx
        simp [hx, hupd, hexbid]
      have hg0 : ∀ x : BillingFinalization, (x.bookingId == bookingId) = false →
          (if x.bookingId = bookingId then upd else x) = x := by
        intro x hx
        simp only [beq_eq_false_iff_ne, ne_eq] at hx
        simp [hx]
      have hfm := find?_map_update
        (fun f : BillingFinalization => f.bookingId == bookingId)
        (fun f => if f.bookingId = bookingId then upd else f) hfind2 hg1 hg0
      exact hfm.trans (by simp [hexbid])
/-- Witness for C8: the rejected refinalize against a settled payment,
and the overwriting refinalize against an unsettled one. -/
theorem refinalize_gateway_guard_witness :
    refinalize wPaidState "admin" none "b1" "k1" "reason" 777 =
      .ok (.rejected ⟨"INVALID_REQUEST",
        "Cannot re-finalize after payment has succeeded. Use adjustment/refund workflow.",
        some "succeeded"⟩, wPaidState) ∧
    ∃ st', refinalize wUnpaidState "admin" none "b1" "k1" "reason" 777 =
        .ok (.finalized { wFinRow with finalBillableCents := wUnpaidFinalizeRes.finalBillableCents, idempotencyKey := "BILLING_FINALIZED:" ++ "b1" ++ ":" ++ ("ADMIN_REFINALIZE:" ++ "b1" ++ ":" ++ "k1") }, st') ∧
      findFinalization st' "b1" = some { wFinRow with finalBillableCents := wUnpaidFinalizeRes.finalBillableCents, idempotencyKey := "BILLING_FINALIZED:" ++ "b1" ++ ":" ++ ("ADMIN_REFINALIZE:" ++ "b1" ++ ":" ++ "k1") } :=
  ⟨(refinalize_gateway_guard wPaidState none "b1" "k1" "reason" 777
      (by decide) (by decide) (by decide)).1 wSucceededPayment (by decide) rfl,
   (refinalize_gateway_guard wUnpaidState none "b1" "k1" "reason" 777
      (by decide) (by decide) (by decide)).2
     (by rintro ⟨pmt, hp, hs⟩
         rw [show findPayment wUnpaidState "b1" = some wPendingPayment
           from by decide] at hp
         cases hp
         exact absurd hs (by decide))
     wUnpaidFinalizeRes wStfState wFinRow (by decide) (by decide)⟩

end ServeLink
